import Mathlib

/-!
Verification development for the GraphSAGE layers of the `gnn` repository.

The embedding models the two source files
`tensorflow_gnn/models/graph_sage/layers.py` and
`tensorflow_gnn/graph/keras/layers/next_state.py`.

Feature tensors of shape `[num_items, feature_dim]` are modelled as
`List (List ℚ)` (rows = items).  The numeric field of the tensor library is
modelled by the exact rationals; the square-root primitive used by
`tf.math.l2_normalize` and the random dropout mask are external to the
two source files and enter the model as explicit parameters.
Errors raised by the Python code are modelled by `Except PyErr`.
-/

namespace TFGNN

/-- A Python exception: `ValueError`, `KeyError` or a failed `assert`. -/
inductive PyErr : Type where
  | valueError (msg : String) : PyErr
  | keyError (msg : String) : PyErr
  | assertionError (msg : String) : PyErr
deriving DecidableEq

/-- A feature vector (one row of a feature tensor). -/
abbrev Vec : Type := List ℚ

/-- A feature tensor of shape `[num_items, feature_dim]`. -/
abbrev Tensor : Type := List Vec

/-- Dot product of two vectors (`tf` contraction along the feature axis). -/
def dot (a b : Vec) : ℚ := (List.zipWith (· * ·) a b).sum

/-- One row through a no-bias linear transform with kernel columns `cols`. -/
def transformRow (cols : List Vec) (r : Vec) : Vec := cols.map (fun c => dot r c)

/-- `tf.keras.layers.Dense(units, use_bias=False)` with kernel given as the
list of its `units` columns: each row is mapped to its products with the
kernel columns. -/
def denseNoBias (cols : List Vec) (x : Tensor) : Tensor :=
  x.map (transformRow cols)

/-- Elementwise sum of two vectors. -/
def addVec (a b : Vec) : Vec := List.zipWith (· + ·) a b

/-- The zero vector of dimension `d`. -/
def zeroVec (d : ℕ) : Vec := List.replicate d 0

/-- Elementwise sum of two tensors (`tf.add` for equal static shapes). -/
def addT (a b : Tensor) : Tensor := List.zipWith addVec a b

/-- `result += bias`: broadcast the bias vector over the rows. -/
def addBias (b : Vec) (t : Tensor) : Tensor := t.map (fun r => addVec r b)

/-- Apply an elementwise function (a Keras activation) to a tensor. -/
def mapT (f : ℚ → ℚ) (t : Tensor) : Tensor := t.map (List.map f)

/-- `tf.math.add_n`: elementwise sum of a list of equally shaped tensors. -/
def addN : List Tensor → Tensor
  | [] => []
  | t :: ts => ts.foldl addT t

/-- Elementwise sum of a list of equally shaped vectors (`tf.math.add_n`
on rank-1 tensors). -/
def addNVec : List Vec → Vec
  | [] => []
  | v :: vs => vs.foldl addVec v

/-- `tf.concat(ts, axis=-1)`: row `i` of the result is the concatenation of
the rows `i` of all inputs. -/
def concatFeatures : List Tensor → Tensor
  | [] => []
  | t :: ts => (List.range t.length).map (fun i => ((t :: ts).map (fun u => u.getD i [])).flatten)

/-- `tf.math.divide_no_nan` on scalars: division, with division by zero
defined as zero. -/
def divNoNan (a b : ℚ) : ℚ := if b = 0 then 0 else a / b

/-- Modelled from the spec: `tf.math.l2_normalize(x, axis=1)` rescales each
row by the reciprocal square root of its sum of squares; the square-root
primitive of the tensor library (out of scope of the two source files) is
passed in as `rsqrt`. -/
def l2NormalizeRows (rsqrt : ℚ → ℚ) (t : Tensor) : Tensor :=
  t.map (fun r => r.map (fun v => v * rsqrt ((r.map (fun w => w * w)).sum)))

/-- Lookup in a Python dict modelled as an association list. -/
def lookup (l : List (String × α)) (k : String) : Option α :=
  (l.find? (fun p => p.1 == k)).map (·.2)

/-- One entry of a dropout mask row: multiply by the mask value and rescale
by `1/(1-rate)`, as `tf.keras.layers.Dropout` does in training mode. -/
def maskRow (rate : ℚ) (m : ℕ → ℚ) : ℕ → Vec → Vec
  | _, [] => []
  | j, v :: vs => (m j * v / (1 - rate)) :: maskRow rate m (j + 1) vs

/-- Apply a dropout mask (a function of the entry position) to a tensor. -/
def maskT (rate : ℚ) (mask : ℕ → ℕ → ℚ) : ℕ → Tensor → Tensor
  | _, [] => []
  | i, r :: rs => maskRow rate (mask i) 0 r :: maskT rate mask (i + 1) rs

/-- `tf.keras.layers.Dropout(rate)` applied with effective training flag
`eff`: in inference mode, or when the rate is zero, it is the identity;
in training mode it multiplies by the random mask (an external source of
randomness, passed in explicitly) and rescales by `1/(1-rate)`. -/
def dropout (rate : ℚ) (mask : ℕ → ℕ → ℚ) (eff : Bool) (x : Tensor) : Tensor :=
  if eff = true ∧ rate ≠ 0 then maskT rate mask 0 x else x

/-- Code-point comparison of strings, as Python compares `str` keys:
lexicographic on the character sequences. -/
def lexLe : List Char → List Char → Bool
  | [], _ => true
  | _ :: _, [] => false
  | c :: cs, d :: ds =>
      if c.toNat < d.toNat then true
      else if d.toNat < c.toNat then false
      else lexLe cs ds

/-- `a <= b` on Python strings. -/
def strLe (a b : String) : Bool := lexLe a.data b.data

/-- Insert one key-value pair into a list sorted by key. -/
def insertByKey (p : String × α) : List (String × α) → List (String × α)
  | [] => [p]
  | q :: qs => if strLe p.1 q.1 then p :: q :: qs else q :: insertByKey p qs

/-- Python's `sorted(d.items())` on a dict with (distinct) string keys:
sort the association list by key. -/
def sortPairs : List (String × α) → List (String × α)
  | [] => []
  | p :: ps => insertByKey p (sortPairs ps)

theorem lexLe_total : ∀ a b, lexLe a b = true ∨ lexLe b a = true := by
  intro a
  induction a with
  | nil => intro b; exact Or.inl rfl
  | cons c cs ih =>
      intro b
      cases b with
      | nil => exact Or.inr rfl
      | cons d ds =>
          by_cases h1 : c.toNat < d.toNat
          · exact Or.inl (by simp [lexLe, h1])
          · by_cases h2 : d.toNat < c.toNat
            · exact Or.inr (by simp [lexLe, h2, Nat.lt_asymm h2])
            · rcases ih ds with h | h
              · exact Or.inl (by simp [lexLe, h1, h2, h])
              · exact Or.inr (by simp [lexLe, h1, h2, h])

theorem lexLe_antisymm : ∀ a b, lexLe a b = true → lexLe b a = true → a = b := by
  intro a
  induction a with
  | nil =>
      intro b _ hba
      cases b with
      | nil => rfl
      | cons d ds => simp [lexLe] at hba
  | cons c cs ih =>
      intro b hab hba
      cases b with
      | nil => simp [lexLe] at hab
      | cons d ds =>
          by_cases h1 : c.toNat < d.toNat
          · simp [lexLe, h1, Nat.lt_asymm h1] at hba
          · by_cases h2 : d.toNat < c.toNat
            · simp [lexLe, h1, h2] at hab
            · have hcd : c = d := Char.ext (by
                apply UInt32.ext
                exact Nat.le_antisymm (Nat.le_of_not_lt h2) (Nat.le_of_not_lt h1))
              simp [lexLe, h1, h2] at hab hba
              rw [hcd, ih ds hab hba]

theorem lexLe_trans : ∀ a b c, lexLe a b = true → lexLe b c = true → lexLe a c = true := by
  intro a
  induction a with
  | nil => intro b c _ _; rfl
  | cons x xs ih =>
      intro b c hab hbc
      cases b with
      | nil => simp [lexLe] at hab
      | cons y ys =>
          cases c with
          | nil => simp [lexLe] at hbc
          | cons z zs =>
              by_cases hxy : x.toNat < y.toNat
              · by_cases hyz : y.toNat < z.toNat
                · simp [lexLe, Nat.lt_trans hxy hyz]
                · by_cases hzy : z.toNat < y.toNat
                  · simp [lexLe, hyz, hzy] at hbc
                  · have : y.toNat = z.toNat := Nat.le_antisymm (Nat.le_of_not_lt hzy) (Nat.le_of_not_lt hyz)
                    simp [lexLe, this ▸ hxy]
              · by_cases hyx : y.toNat < x.toNat
                · simp [lexLe, hxy, hyx] at hab
                · have hxy' : x.toNat = y.toNat := Nat.le_antisymm (Nat.le_of_not_lt hyx) (Nat.le_of_not_lt hxy)
                  simp [lexLe, hxy, hyx] at hab
                  by_cases hyz : y.toNat < z.toNat
                  · simp [lexLe, hxy' ▸ hyz]
                  · by_cases hzy : z.toNat < y.toNat
                    · simp [lexLe, hyz, hzy] at hbc
                    · simp [lexLe, hyz, hzy] at hbc
                      simp [lexLe, hxy' ▸ hyz, hxy' ▸ hzy, ih ys zs hab hbc]

theorem strLe_total (a b : String) : strLe a b = true ∨ strLe b a = true :=
  lexLe_total a.data b.data

theorem strLe_antisymm {a b : String} (hab : strLe a b = true) (hba : strLe b a = true) : a = b := by
  cases a; cases b
  exact congrArg String.mk (lexLe_antisymm _ _ hab hba)

theorem strLe_trans {a b c : String} (hab : strLe a b = true) (hbc : strLe b c = true) :
    strLe a c = true :=
  lexLe_trans _ _ _ hab hbc

theorem insertByKey_perm (p : String × α) (l : List (String × α)) :
    (insertByKey p l).Perm (p :: l) := by
  induction l with
  | nil => exact List.Perm.refl _
  | cons q qs ih =>
      by_cases h : strLe p.1 q.1
      · simp [insertByKey, h]
      · simp only [insertByKey, h, if_neg, Bool.false_eq_true, not_false_iff, ite_false]
        exact ((ih.cons q).trans (List.Perm.swap p q qs))

theorem sortPairs_perm (l : List (String × α)) : (sortPairs l).Perm l := by
  induction l with
  | nil => exact List.Perm.refl _
  | cons p ps ih => exact (insertByKey_perm p (sortPairs ps)).trans (ih.cons p)

theorem insertByKey_sorted (p : String × α) (l : List (String × α))
    (h : l.Pairwise (fun x y => strLe x.1 y.1 = true)) :
    (insertByKey p l).Pairwise (fun x y => strLe x.1 y.1 = true) := by
  induction l with
  | nil => simp [insertByKey]
  | cons q qs ih =>
      rcases List.pairwise_cons.mp h with ⟨hq, hqs⟩
      by_cases hle : strLe p.1 q.1 = true
      · rw [insertByKey, if_pos hle]
        refine List.pairwise_cons.mpr ⟨?_, h⟩
        intro z hz
        rcases List.mem_cons.mp hz with hz2 | hz2
        · exact hz2 ▸ hle
        · exact strLe_trans hle (hq z hz2)
      · have hqp : strLe q.1 p.1 = true := by
          rcases strLe_total p.1 q.1 with h1 | h1
          · exact absurd h1 hle
          · exact h1
        rw [insertByKey, if_neg hle]
        refine List.pairwise_cons.mpr ⟨?_, ih hqs⟩
        intro z hz
        rcases List.mem_cons.mp ((insertByKey_perm p qs).mem_iff.mp hz) with hz2 | hz2
        · exact hz2 ▸ hqp
        · exact hq z hz2

theorem sortPairs_sorted (l : List (String × α)) :
    (sortPairs l).Pairwise (fun x y => strLe x.1 y.1 = true) := by
  induction l with
  | nil => simp [sortPairs]
  | cons p ps ih => exact insertByKey_sorted p (sortPairs ps) ih

/-- Two association lists with the same key-value pairs and duplicate-free
keys sort to the same list: the order in which a Python dict yields its
items does not affect `sorted(d.items())`. -/
theorem sortPairs_eq_of_perm {l₁ l₂ : List (String × α)}
    (hp : l₁.Perm l₂) (hnd : (l₁.map Prod.fst).Nodup) :
    sortPairs l₁ = sortPairs l₂ := by
  have hperm : (sortPairs l₁).Perm (sortPairs l₂) :=
    (sortPairs_perm l₁).trans (hp.trans (sortPairs_perm l₂).symm)
  have hnd₁ : ((sortPairs l₁).map Prod.fst).Nodup :=
    (((sortPairs_perm l₁).map Prod.fst).nodup_iff).mpr hnd
  have hnd₂ : ((sortPairs l₂).map Prod.fst).Nodup := by
    have := ((hperm.map Prod.fst).nodup_iff).mp hnd₁
    exact this
  have hne₁ : (sortPairs l₁).Pairwise (fun x y => x.1 ≠ y.1) :=
    (List.pairwise_map).mp hnd₁
  have hne₂ : (sortPairs l₂).Pairwise (fun x y => x.1 ≠ y.1) :=
    (List.pairwise_map).mp hnd₂
  have hs₁ : (sortPairs l₁).Pairwise (fun x y => strLe x.1 y.1 = true ∧ x.1 ≠ y.1) :=
    (sortPairs_sorted l₁).and hne₁
  have hs₂ : (sortPairs l₂).Pairwise (fun x y => strLe x.1 y.1 = true ∧ x.1 ≠ y.1) :=
    (sortPairs_sorted l₂).and hne₂
  have : IsAntisymm (String × α) (fun x y => strLe x.1 y.1 = true ∧ x.1 ≠ y.1) :=
    ⟨fun a b hab hba => absurd (strLe_antisymm hab.1 hba.1) hab.2⟩
  exact @List.eq_of_perm_of_sorted _ _ this _ _ hperm hs₁ hs₂

/-- Incident-node tag: `tfgnn.SOURCE` or `tfgnn.TARGET`. -/
inductive Tag : Type where
  | SOURCE : Tag
  | TARGET : Tag
deriving DecidableEq

/-- `tfgnn.reverse_tag`: swap `SOURCE` and `TARGET`. -/
def reverseTag : Tag → Tag
  | .SOURCE => .TARGET
  | .TARGET => .SOURCE

/-- Modelled from the spec: `tfgnn.combine_values(inputs, combine_type)` of
the graph-tensor collaborator combines a list of tensors: `sum`
elementwise-adds all entries, `concat` concatenates along the feature axis,
and any other name fails with a configuration error. -/
def combineValues (ts : List Tensor) (combine_type : String) : Except PyErr Tensor :=
  if combine_type = "sum" then .ok (addN ts)
  else if combine_type = "concat" then .ok (concatFeatures ts)
  else .error (.valueError ("unknown combine type: " ++ combine_type))

/-- The constructor configuration of `GraphSAGENextState`
(layers.py lines 640-681).  The trainable self-transform kernel and the
lazily created bias are not part of the configuration; they are passed to
`call` separately.  The activation is the elementwise function resolved by
`tf.keras.activations.get`. -/
structure GraphSAGENextState where
  units : ℕ
  use_bias : Bool
  dropout_rate : ℚ
  feature_name : String
  l2_normalize : Bool
  combine_type : String
  activation : ℚ → ℚ

/-- `GraphSAGENextState.call` (layers.py lines 716-731): reject context
input, apply dropout and the no-bias self-transform to the old node state,
combine with the per-edge-set inputs sorted by edge-set name, add the bias
if configured, apply the activation, L2-normalize if configured, and return
a single-entry feature bag keyed by the configured feature name. -/
def GraphSAGENextState.call (cfg : GraphSAGENextState) (self_kernel : List Vec)
    (bias : Vec) (rsqrt : ℚ → ℚ) (mask : ℕ → ℕ → ℚ)
    (inputs : Tensor × List (String × Tensor) × List (String × Tensor))
    (training : Bool) : Except PyErr (List (String × Tensor)) :=
  let (old_node_state, edge_inputs_dict, unused_context_state) := inputs
  if unused_context_state ≠ [] then
    .error (.valueError "Input from context is not supported by GraphSAGENextState")
  else
    match combineValues
        (denseNoBias self_kernel (dropout cfg.dropout_rate mask training old_node_state)
          :: (sortPairs edge_inputs_dict).map (·.2))
        cfg.combine_type with
    | .error e => .error e
    | .ok combined =>
        let withBias := if cfg.use_bias then addBias bias combined else combined
        let activated := mapT cfg.activation withBias
        let normalized := if cfg.l2_normalize then l2NormalizeRows rsqrt activated else activated
        .ok [(cfg.feature_name, normalized)]

/-- A static tensor shape: a list of dimensions, `none` for an undefined
dimension. -/
abbrev Shape : Type := List (Option ℕ)

/-- The feature-axis size `s[1]` of a rank-2 shape (0 if undefined). -/
def featDim (s : Shape) : ℕ := (s.getD 1 none).getD 0

/-- `GraphSAGENextState.build` (layers.py lines 695-714): create the bias
vector (zero-initialized) once the input shapes are known.  In `sum` mode
its length is `units`; in `concat` mode it is `units` plus the sum of the
feature widths of the edge-set inputs, and any edge-set input shape of rank
other than 2 or with an undefined feature axis is rejected. -/
def GraphSAGENextState.build (cfg : GraphSAGENextState)
    (edge_inputs_shape_dict : List (String × Shape)) : Except PyErr (Option Vec) :=
  if cfg.use_bias then
    if cfg.combine_type = "sum" then .ok (some (zeroVec cfg.units))
    else if cfg.combine_type = "concat" then
      let edge_input_shapes := edge_inputs_shape_dict.map (·.2)
      if edge_input_shapes.any (fun s => s.length != 2 || (s.getD 1 none).isNone) then
        .error (.valueError "Invalid shape for edge inputs.")
      else .ok (some (zeroVec (cfg.units + (edge_input_shapes.map featDim).sum)))
    else
      .error (.valueError ("combine_type: " ++ cfg.combine_type ++
        " is not supported. Please instead specify concat or sum."))
  else .ok none

/-- The build state of a lazily initialized Keras layer: whether `build`
has run, and the bias it created (if any). -/
structure LayerState where
  built : Bool
  bias : Option Vec
deriving DecidableEq

/-- Modelled from the spec: the Keras framework creates weights lazily,
running `build` exactly once before the first call from the first observed
input shapes; every later call reuses the stored weights unchanged. -/
def ensureBuilt (cfg : GraphSAGENextState) (st : LayerState)
    (edge_inputs_shape_dict : List (String × Shape)) : Except PyErr LayerState :=
  if st.built then .ok st
  else
    match cfg.build edge_inputs_shape_dict with
    | .error e => .error e
    | .ok b => .ok ⟨true, b⟩

/-- The constructor configuration of `GraphSAGEAggregatorConv`
(layers.py lines 30-80). -/
structure GraphSAGEAggregatorConv where
  receiver_tag : Tag
  reduce_type : String
  sender_node_feature : String
  units : ℕ
  dropout_rate : ℚ

/-- `GraphSAGEAggregatorConv.__init__` (layers.py lines 30-80): rejects an
explicitly requested receiver feature or sender-edge feature and a missing
sender-node feature. -/
def GraphSAGEAggregatorConv.init (receiver_tag : Tag) (reduce_type : String)
    (sender_node_feature : Option String) (units : ℕ) (dropout_rate : ℚ)
    (receiver_feature sender_edge_feature : Option String) :
    Except PyErr GraphSAGEAggregatorConv :=
  if receiver_feature.isSome then
    .error (.valueError "receiver_feature has to be None for GraphSAGEAggregatorConv.")
  else if sender_edge_feature.isSome then
    .error (.valueError "sender_edge_feature has to be None for GraphSAGEAggregatorConv.")
  else
    match sender_node_feature with
    | none => .error (.valueError "sender_node_feature should be specified for GraphSAGEAggregatorConv.")
    | some f => .ok ⟨receiver_tag, reduce_type, f, units, dropout_rate⟩

/-- `GraphSAGEAggregatorConv.convolve` (layers.py lines 95-108): broadcast
the sender-node features to the edges, apply dropout (gated by the explicit
training flag), pool to the receiver with the configured reduce operation,
and apply the no-bias linear transform to `units` dimensions.  The
broadcast and pool callables are supplied by the graph-tensor framework. -/
def GraphSAGEAggregatorConv.convolve (conv : GraphSAGEAggregatorConv)
    (kernel : List Vec) (mask : ℕ → ℕ → ℚ) (sender_node_input : Option Tensor)
    (broadcast_from_sender_node : Tensor → Tensor)
    (pool_to_receiver : Tensor → String → Tensor) (training : Bool) :
    Except PyErr Tensor :=
  match sender_node_input with
  | none => .error (.assertionError "sender_node_input cannot be None.")
  | some x =>
      .ok (denseNoBias kernel
        (pool_to_receiver
          (dropout conv.dropout_rate mask training (broadcast_from_sender_node x))
          conv.reduce_type))

/-- `tf.keras.layers.Dense(units, use_bias=..., activation=...)` with kernel
columns `cols`, bias `b` and elementwise activation `act`. -/
def dense (cols : List Vec) (b : Vec) (useB : Bool) (act : ℚ → ℚ) (x : Tensor) : Tensor :=
  mapT act (if useB then addBias b (denseNoBias cols x) else denseNoBias cols x)

/-- The constructor configuration of `GraphSAGEPoolingConv`
(layers.py lines 134-203). -/
structure GraphSAGEPoolingConv where
  receiver_tag : Tag
  sender_node_feature : String
  units : ℕ
  hidden_units : ℕ
  reduce_type : String
  use_bias : Bool
  dropout_rate : ℚ
  activation : ℚ → ℚ

/-- `GraphSAGEPoolingConv.__init__` (layers.py lines 134-203): same
structural validation as the elementwise aggregator. -/
def GraphSAGEPoolingConv.init (receiver_tag : Tag) (sender_node_feature : Option String)
    (units hidden_units : ℕ) (reduce_type : String) (use_bias : Bool)
    (dropout_rate : ℚ) (activation : ℚ → ℚ)
    (receiver_feature sender_edge_feature : Option String) :
    Except PyErr GraphSAGEPoolingConv :=
  if receiver_feature.isSome then
    .error (.valueError "receiver_feature has to be None for GraphSAGEPoolingConv.")
  else if sender_edge_feature.isSome then
    .error (.valueError "sender_edge_feature has to be None for GraphSAGEPoolingConv.")
  else
    match sender_node_feature with
    | none => .error (.valueError "sender_node_feature should be specified for GraphSAGEPoolingConv.")
    | some f => .ok ⟨receiver_tag, f, units, hidden_units, reduce_type, use_bias, dropout_rate, activation⟩

/-- `GraphSAGEPoolingConv.convolve` (layers.py lines 221-236): broadcast,
dropout (gated by the explicit training flag), hidden transform with
optional bias and nonlinearity, pool, final no-bias transform. -/
def GraphSAGEPoolingConv.convolve (conv : GraphSAGEPoolingConv)
    (pooling_kernel : List Vec) (pooling_bias : Vec) (kernel : List Vec)
    (mask : ℕ → ℕ → ℚ) (sender_node_input : Option Tensor)
    (broadcast_from_sender_node : Tensor → Tensor)
    (pool_to_receiver : Tensor → String → Tensor) (training : Bool) :
    Except PyErr Tensor :=
  match sender_node_input with
  | none => .error (.assertionError "sender_node_input cannot be None.")
  | some x =>
      .ok (denseNoBias kernel
        (pool_to_receiver
          (dense pooling_kernel pooling_bias conv.use_bias conv.activation
            (dropout conv.dropout_rate mask training (broadcast_from_sender_node x)))
          conv.reduce_type))

/-- Modelled from the spec: the adjacency of an edge set maps each edge to
one node index at each of its two endpoints, inside named node sets. -/
structure Adjacency where
  source_name : String
  target_name : String
  source : List ℕ
  target : List ℕ

/-- The node-set name bound to an endpoint tag. -/
def Adjacency.node_set_name (a : Adjacency) : Tag → String
  | .SOURCE => a.source_name
  | .TARGET => a.target_name

/-- The per-edge node indices at an endpoint tag. -/
def Adjacency.endpoints (a : Adjacency) : Tag → List ℕ
  | .SOURCE => a.source
  | .TARGET => a.target

/-- Modelled from the spec: an edge set of the graph-tensor collaborator. -/
structure EdgeSet where
  adjacency : Adjacency

/-- The number of edges in an edge set. -/
def EdgeSet.total_size (es : EdgeSet) : ℕ := es.adjacency.source.length

/-- Modelled from the spec: a node set with its item count and named
feature tensors. -/
structure NodeSet where
  total_size : ℕ
  features : List (String × Tensor)

/-- Modelled from the spec: a scalar graph tensor with named node sets and
edge sets. -/
structure GraphTensor where
  node_sets : List (String × NodeSet)
  edge_sets : List (String × EdgeSet)

/-- Modelled from the spec: `tfgnn.broadcast_node_to_edges` replicates a
per-node feature value to every edge at the given endpoint. -/
def broadcastNodeToEdges (g : GraphTensor) (edge_set_name : String) (tag : Tag)
    (v : Tensor) : Tensor :=
  match lookup g.edge_sets edge_set_name with
  | none => []
  | some es => (es.adjacency.endpoints tag).map (fun i => v.getD i [])

/-- Sum-pool per-edge values to `n` receiver nodes along the given endpoint
indices; a node with no incident edge receives the zero vector of the
statically known feature dimension `dim`. -/
def poolSum (n : ℕ) (dim : ℕ) (endpoints : List ℕ) (vals : Tensor) : Tensor :=
  (List.range n).map (fun i =>
    (((endpoints.zip vals).filter (fun p => p.1 == i)).map (·.2)).foldl addVec (zeroVec dim))

/-- Mean-pool per-edge values to `n` receiver nodes: the sum divided by the
number of incident edges, with the empty mean defined as zero. -/
def poolMean (n : ℕ) (dim : ℕ) (endpoints : List ℕ) (vals : Tensor) : Tensor :=
  (List.range n).map (fun i =>
    let hits := ((endpoints.zip vals).filter (fun p => p.1 == i)).map (·.2)
    if hits.length = 0 then zeroVec dim
    else (hits.foldl addVec (zeroVec dim)).map (fun v => v / (hits.length : ℚ)))

/-- Modelled from the spec: `tfgnn.pool_edges_to_node` reduces per-edge
values to the receiver node of the given endpoint tag with a named
registered reduction operator (`sum` and `mean` are the ones this module
uses); `dim` is the static feature dimension of `vals`. -/
def poolEdgesToNode (g : GraphTensor) (edge_set_name : String) (tag : Tag)
    (reduce_type : String) (dim : ℕ) (vals : Tensor) : Tensor :=
  match lookup g.edge_sets edge_set_name with
  | none => []
  | some es =>
      let n := ((lookup g.node_sets (es.adjacency.node_set_name tag)).map NodeSet.total_size).getD 0
      if reduce_type = "sum" then poolSum n dim (es.adjacency.endpoints tag) vals
      else if reduce_type = "mean" then poolMean n dim (es.adjacency.endpoints tag) vals
      else []

/-- Python dict indexing `d[k]`, raising `KeyError` when absent. -/
def getEdgeSet (g : GraphTensor) (name : String) : Except PyErr EdgeSet :=
  match lookup g.edge_sets name with
  | none => .error (.keyError name)
  | some es => .ok es

/-- Python dict indexing for node sets explained as for `getEdgeSet`. -/
def getNodeSet (g : GraphTensor) (name : String) : Except PyErr NodeSet :=
  match lookup g.node_sets name with
  | none => .error (.keyError name)
  | some ns => .ok ns

/-- Python dict indexing for a node-set feature. -/
def getFeature (ns : NodeSet) (name : String) : Except PyErr Tensor :=
  match lookup ns.features name with
  | none => .error (.keyError name)
  | some t => .ok t

/-- The constructor configuration of `GCNGraphSAGENodeSetUpdate`
(layers.py lines 287-366). -/
structure GCNGraphSAGENodeSetUpdate where
  edge_set_names : List String
  receiver_tag : Tag
  reduce_type : String
  self_node_feature : String
  sender_node_feature : String
  units : ℕ
  dropout_rate : ℚ
  activation : ℚ → ℚ
  use_bias : Bool
  share_weights : Bool
  add_self_loop : Bool

/-- The trainable weights owned by a `GCNGraphSAGENodeSetUpdate`: one
kernel per edge set (when weights are not shared), the shared/self kernel,
and the bias. -/
structure GCNWeights where
  edge_kernels : String → List Vec
  node_kernel : List Vec
  bias : Vec

/-- The random dropout masks drawn by the two dropout applications of one
`GCNGraphSAGENodeSetUpdate` call. -/
structure GCNMasks where
  sender_mask : String → ℕ → ℕ → ℚ
  self_mask : ℕ → ℕ → ℚ

/-- Lines 408-413 of `GCNGraphSAGENodeSetUpdate.call`: dropout on the
sender states, then the per-edge-set transform, or the shared transform
when `share_weights`.  The inner dropout layer is invoked without an
explicit training argument, so it resolves its mode from the enclosing
call context, which holds the `training` flag passed to `call` (the
outer-call mode outranks the global learning phase in the framework's
resolution order, modelled from the spec); hence dropout here is gated by
`training`. -/
def GCNGraphSAGENodeSetUpdate.senderVals (cfg : GCNGraphSAGENodeSetUpdate)
    (w : GCNWeights) (m : GCNMasks) (training : Bool) (edge_set_name : String)
    (sender_raw : Tensor) : Tensor :=
  let sender_dropped := dropout cfg.dropout_rate (m.sender_mask edge_set_name)
    training sender_raw
  if ¬cfg.share_weights then denseNoBias (w.edge_kernels edge_set_name) sender_dropped
  else denseNoBias w.node_kernel sender_dropped

/-- The loop body of `GCNGraphSAGENodeSetUpdate.call` for one edge set
(layers.py lines 398-435): validate the receiver endpoint, read the sender
features, apply dropout and the per-edge-set or shared transform, broadcast
to the edges and sum-pool to the receiver; also pool a tensor of ones and
squeeze it to obtain the per-node in-degree.  The dropout here (line 408)
receives its mode from the call context holding the `training` flag of
`call`. -/
def GCNGraphSAGENodeSetUpdate.processEdgeSet (cfg : GCNGraphSAGENodeSetUpdate)
    (w : GCNWeights) (m : GCNMasks) (training : Bool) (g : GraphTensor)
    (node_set_name : String) (edge_set_name : String) : Except PyErr (Tensor × Vec) := do
  let es ← getEdgeSet g edge_set_name
  if node_set_name ≠ es.adjacency.node_set_name cfg.receiver_tag then
    .error (.valueError ("Incorrect " ++ edge_set_name ++
      " that has a different node at receiver_tag other than " ++ node_set_name ++ "."))
  else do
    let sender_node_set_name := es.adjacency.node_set_name (reverseTag cfg.receiver_tag)
    let sender_ns ← getNodeSet g sender_node_set_name
    let sender_raw ← getFeature sender_ns cfg.sender_node_feature
    let sender_vals := cfg.senderVals w m training edge_set_name sender_raw
    let broadcasted := broadcastNodeToEdges g edge_set_name (reverseTag cfg.receiver_tag) sender_vals
    let pooled := poolEdgesToNode g edge_set_name cfg.receiver_tag "sum" cfg.units broadcasted
    let edge_set_ones : Tensor := List.replicate es.total_size [(1 : ℚ)]
    let in_degrees := (poolEdgesToNode g edge_set_name cfg.receiver_tag "sum" 1 edge_set_ones).map
      (fun r => r.getD 0 0)
    .ok (pooled, in_degrees)

/-- The `for edge_set_name in self._edge_set_names` loop of
`GCNGraphSAGENodeSetUpdate.call`: collect the pooled sender values per edge
set and, under `mean` reduction, the per-edge-set in-degree vectors. -/
def GCNGraphSAGENodeSetUpdate.loop (cfg : GCNGraphSAGENodeSetUpdate) (w : GCNWeights)
    (m : GCNMasks) (training : Bool) (g : GraphTensor) (node_set_name : String) :
    List String → Except PyErr (List Tensor × List Vec)
  | [] => .ok ([], [])
  | edge_set_name :: rest => do
      let pr ← cfg.processEdgeSet w m training g node_set_name edge_set_name
      let (pooled, degs) ← cfg.loop w m training g node_set_name rest
      .ok (pr.1 :: pooled, if cfg.reduce_type = "mean" then pr.2 :: degs else degs)

/-- Lines 437-444 of `GCNGraphSAGENodeSetUpdate.call`: when `add_self_loop`
is enabled, append the dropout-and-transformed own prior state to the
accumulated list (and, under `mean`, a ones vector to the in-degree
list).  The dropout at line 440 likewise resolves its mode from the call
context holding the `training` flag of `call`. -/
def GCNGraphSAGENodeSetUpdate.selfAugment (cfg : GCNGraphSAGENodeSetUpdate)
    (w : GCNWeights) (m : GCNMasks) (training : Bool) (ns : NodeSet)
    (pooled : List Tensor) (degs : List Vec) : Except PyErr (List Tensor × List Vec) :=
  if cfg.add_self_loop then do
    let self_raw ← getFeature ns cfg.self_node_feature
    let self_dropped := dropout cfg.dropout_rate m.self_mask training self_raw
    let self_vals := denseNoBias w.node_kernel self_dropped
    pure (pooled ++ [self_vals],
      if cfg.reduce_type = "mean" then degs ++ [List.replicate ns.total_size (1 : ℚ)]
      else degs)
  else pure (pooled, degs)

/-- The pre-bias, pre-activation part of `GCNGraphSAGENodeSetUpdate.call`
continued (layers.py lines 391-451): validate the reduce type, run the
edge-set loop, append the self-loop contribution when enabled,
elementwise-add everything, and under `mean` divide each node row by its
total accumulated in-degree with division by zero defined as zero. -/
def GCNGraphSAGENodeSetUpdate.preActivation (cfg : GCNGraphSAGENodeSetUpdate)
    (w : GCNWeights) (m : GCNMasks) (training : Bool) (g : GraphTensor)
    (node_set_name : String) : Except PyErr Tensor := do
  if ¬(cfg.reduce_type = "sum" ∨ cfg.reduce_type = "mean") then
    .error (.valueError (cfg.reduce_type ++ " is not supported, please instead use any of sum or mean"))
  else do
    let (pooled, degs) ← cfg.loop w m training g node_set_name cfg.edge_set_names
    let ns ← getNodeSet g node_set_name
    let (pooled, degs) ← cfg.selfAugment w m training ns pooled degs
    let summed := addN pooled
    if cfg.reduce_type = "mean" then
      .ok (List.zipWith (fun row d => row.map (fun v => divNoNan v d)) summed (addNVec degs))
    else
      .ok summed

/-- `GCNGraphSAGENodeSetUpdate.call` (layers.py lines 385-455): the
pre-activation result, plus the bias if configured, through the
activation, returned as a single-entry feature bag keyed by the self
feature name.  The `training` flag enters the call context and gates both
dropout applications (the inner dropout layers pass no explicit training
argument and resolve it from this context). -/
def GCNGraphSAGENodeSetUpdate.call (cfg : GCNGraphSAGENodeSetUpdate) (w : GCNWeights)
    (m : GCNMasks) (g : GraphTensor) (node_set_name : String)
    (training : Bool) : Except PyErr (List (String × Tensor)) := do
  let pre ← cfg.preActivation w m training g node_set_name
  let result := if cfg.use_bias then addBias w.bias pre else pre
  .ok [(cfg.self_node_feature, mapT cfg.activation result)]

/-- A `FieldOrFields` value: a single feature tensor or a feature bag. -/
inductive FieldOrFields : Type where
  | single (t : Tensor) : FieldOrFields
  | bag (m : List (String × Tensor)) : FieldOrFields

/-- Modelled from the spec: `tf.nest.flatten` yields a single tensor as a
one-element list and the values of a dict in sorted key order. -/
def flattenFields : FieldOrFields → List Tensor
  | .single t => [t]
  | .bag m => (sortPairs m).map (·.2)

/-- The static shape `[num_items, feature_dim]` of a (rectangular) feature
tensor. -/
def tensorShape (t : Tensor) : List ℕ := [t.length, (t.headD []).length]

/-- The configuration of `ResidualNextState`
(next_state.py lines 158-171): the user-supplied residual block, the
activation (identity by default) and the skip-connection feature name. -/
structure ResidualNextState where
  residual_block : Tensor → Tensor
  activation : ℚ → ℚ
  skip_connection_feature_name : String

/-- `ResidualNextState.__init__` (next_state.py lines 158-171): stores its
arguments and performs no shape validation, so construction never fails. -/
def ResidualNextState.init (residual_block : Tensor → Tensor) (activation : ℚ → ℚ)
    (skip_connection_feature_name : String) : Except PyErr ResidualNextState :=
  .ok ⟨residual_block, activation, skip_connection_feature_name⟩

/-- The skip-connection feature extracted from the first input position:
the single tensor itself, or the bag entry at the configured key (absent
keys yield `none`, which `call` turns into the `KeyError`). -/
def ResidualNextState.skipFeature (res : ResidualNextState) : FieldOrFields → Option Tensor
  | .single t => some t
  | .bag m => lookup m res.skip_connection_feature_name

/-- `ResidualNextState.call` (next_state.py lines 180-214): select the skip
feature (the single tensor, or the bag entry at the configured key, with a
`KeyError` when absent), flatten and concatenate all inputs, run the
residual block, fail with a shape error when the block output shape is
incompatible with the skip feature shape, then add and activate. -/
def ResidualNextState.call (res : ResidualNextState)
    (inputs : FieldOrFields × FieldOrFields × FieldOrFields) : Except PyErr Tensor :=
  match res.skipFeature inputs.1 with
  | none =>
      .error (.keyError
        ("ResidualNextState() could not find the skip connection feature " ++
         res.skip_connection_feature_name ++ " in the features of the updated graph piece"))
  | some skip_connection_feature =>
      let net := concatFeatures
        (flattenFields inputs.1 ++ flattenFields inputs.2.1 ++ flattenFields inputs.2.2)
      let net := res.residual_block net
      if tensorShape skip_connection_feature ≠ tensorShape net then
        .error (.valueError
          "A ResidualNextState() requires an update_fn whose output has the same shape as the input state")
      else
        .ok (mapT res.activation (addT net skip_connection_feature))

/-- The rectified linear unit, the default activation of the convolution
layers. -/
def relu (v : ℚ) : ℚ := max v 0

/-- The adjacency part of an edge-set spec (schema introspection). -/
structure EdgeSetSpec where
  source_name : String
  target_name : String

/-- The node-set name at an endpoint tag of an edge-set spec. -/
def EdgeSetSpec.node_set_name (s : EdgeSetSpec) : Tag → String
  | .SOURCE => s.source_name
  | .TARGET => s.target_name

/-- Modelled from the spec: the graph-tensor spec enumerates the edge sets
with their adjacency specs. -/
structure GraphTensorSpec where
  edge_sets_spec : List (String × EdgeSetSpec)

/-- One convolution instantiated by `GraphSAGEGraphUpdate`: a pooling or an
elementwise aggregator convolution. -/
inductive ConvKind : Type where
  | pooling (c : GraphSAGEPoolingConv) : ConvKind
  | aggregator (c : GraphSAGEAggregatorConv) : ConvKind

/-- One node-set update assembled by `GraphSAGEGraphUpdate`: the per-edge-set
convolutions and the `GraphSAGENextState` combiner. -/
structure NodeSetUpdateModel where
  edge_set_inputs : List (String × ConvKind)
  next_state : GraphSAGENextState

/-- `collections.defaultdict(dict)` grouping: append a keyed value into the
group of `ns`, creating the group at the end on first use (Python dicts
iterate in insertion order). -/
def insertGroup (acc : List (String × List (String × ConvKind))) (ns : String)
    (v : String × ConvKind) : List (String × List (String × ConvKind)) :=
  match acc with
  | [] => [(ns, [v])]
  | (k, l) :: rest =>
      if k = ns then (k, l ++ [v]) :: rest else (k, l) :: insertGroup rest ns v

/-- `GraphUpdateCallback` inside `GraphSAGEGraphUpdate`
(layers.py lines 536-579): once the graph spec is known, check the
`use_pooling`/`hidden_units` pairing, instantiate one convolution per edge
set whose receiver endpoint lands in `node_set_names` (grouped by receiver
node set), and pair each group with one `GraphSAGENextState` combiner.
The pooling convolution is constructed without an activation argument, so
it keeps its `relu` default. -/
def GraphUpdateCallback (node_set_names : List String) (receiver_tag : Tag)
    (reduce_type : String) (use_pooling : Bool) (use_bias : Bool) (dropout_rate : ℚ)
    (units : ℕ) (hidden_units : Option ℕ) (l2_normalize : Bool) (combine_type : String)
    (activation : ℚ → ℚ) (feature_name : String) (spec : GraphTensorSpec) :
    Except PyErr (List (String × NodeSetUpdateModel)) :=
  if use_pooling ≠ hidden_units.isSome then
    .error (.valueError
      "Either use_pooling or hidden_units has been configured without the other, please configure them together or disable them both.")
  else
    let groups := spec.edge_sets_spec.foldl (fun acc p =>
      let node_set_name := p.2.node_set_name receiver_tag
      if node_set_name ∈ node_set_names then
        insertGroup acc node_set_name (p.1,
          if use_pooling then
            ConvKind.pooling
              ⟨receiver_tag, feature_name, units, hidden_units.getD 0, reduce_type,
               use_bias, dropout_rate, relu⟩
          else
            ConvKind.aggregator ⟨receiver_tag, reduce_type, feature_name, units, dropout_rate⟩)
      else acc) []
    .ok (groups.map (fun gr => (gr.1,
      ⟨gr.2, ⟨units, use_bias, dropout_rate, feature_name, l2_normalize, combine_type, activation⟩⟩)))

/-- The config dict returned by `GraphSAGEAggregatorConv.get_config`
(layers.py lines 82-93): the base-class fields receiver tag and
sender-node feature (the popped `receiver_feature` and
`sender_edge_feature` are asserted to be `None`), plus units, dropout rate
and reduce type. -/
structure AggregatorConvConfig where
  receiver_tag : Tag
  sender_node_feature : String
  units : ℕ
  dropout_rate : ℚ
  reduce_type : String

/-- `GraphSAGEAggregatorConv.get_config` (layers.py lines 82-93). -/
def GraphSAGEAggregatorConv.get_config (c : GraphSAGEAggregatorConv) : AggregatorConvConfig :=
  ⟨c.receiver_tag, c.sender_node_feature, c.units, c.dropout_rate, c.reduce_type⟩

/-- Modelled from the spec: the Keras default `from_config` passes the
config dict to the constructor; the popped feature names default to
`None`. -/
def GraphSAGEAggregatorConv.from_config (c : AggregatorConvConfig) :
    Except PyErr GraphSAGEAggregatorConv :=
  GraphSAGEAggregatorConv.init c.receiver_tag c.reduce_type (some c.sender_node_feature)
    c.units c.dropout_rate none none

/-- The config dict returned by `GraphSAGEPoolingConv.get_config`
(layers.py lines 205-219). -/
structure PoolingConvConfig where
  receiver_tag : Tag
  sender_node_feature : String
  activation : ℚ → ℚ
  units : ℕ
  hidden_units : ℕ
  dropout_rate : ℚ
  use_bias : Bool
  reduce_type : String

/-- `GraphSAGEPoolingConv.get_config` (layers.py lines 205-219). -/
def GraphSAGEPoolingConv.get_config (c : GraphSAGEPoolingConv) : PoolingConvConfig :=
  ⟨c.receiver_tag, c.sender_node_feature, c.activation, c.units, c.hidden_units,
   c.dropout_rate, c.use_bias, c.reduce_type⟩

/-- Modelled from the spec: Keras default `from_config` for the pooling
convolution. -/
def GraphSAGEPoolingConv.from_config (c : PoolingConvConfig) :
    Except PyErr GraphSAGEPoolingConv :=
  GraphSAGEPoolingConv.init c.receiver_tag (some c.sender_node_feature) c.units
    c.hidden_units c.reduce_type c.use_bias c.dropout_rate c.activation none none

/-- The config dict returned by `GCNGraphSAGENodeSetUpdate.get_config`
(layers.py lines 368-383). -/
structure GCNNodeSetUpdateConfig where
  edge_set_names : List String
  receiver_tag : Tag
  reduce_type : String
  self_node_feature : String
  sender_node_feature : String
  units : ℕ
  dropout_rate : ℚ
  activation : ℚ → ℚ
  use_bias : Bool
  share_weights : Bool
  add_self_loop : Bool

/-- `GCNGraphSAGENodeSetUpdate.get_config` (layers.py lines 368-383). -/
def GCNGraphSAGENodeSetUpdate.get_config (c : GCNGraphSAGENodeSetUpdate) :
    GCNNodeSetUpdateConfig :=
  ⟨c.edge_set_names, c.receiver_tag, c.reduce_type, c.self_node_feature,
   c.sender_node_feature, c.units, c.dropout_rate, c.activation, c.use_bias,
   c.share_weights, c.add_self_loop⟩

/-- Modelled from the spec: Keras default `from_config` for the GCN update
(its constructor performs no validation that could fail). -/
def GCNGraphSAGENodeSetUpdate.from_config (c : GCNNodeSetUpdateConfig) :
    GCNGraphSAGENodeSetUpdate :=
  ⟨c.edge_set_names, c.receiver_tag, c.reduce_type, c.self_node_feature,
   c.sender_node_feature, c.units, c.dropout_rate, c.activation, c.use_bias,
   c.share_weights, c.add_self_loop⟩

/-- The config dict returned by `GraphSAGENextState.get_config`
(layers.py lines 683-693). -/
structure NextStateConfig where
  units : ℕ
  use_bias : Bool
  dropout_rate : ℚ
  feature_name : String
  l2_normalize : Bool
  combine_type : String
  activation : ℚ → ℚ

/-- `GraphSAGENextState.get_config` (layers.py lines 683-693). -/
def GraphSAGENextState.get_config (c : GraphSAGENextState) : NextStateConfig :=
  ⟨c.units, c.use_bias, c.dropout_rate, c.feature_name, c.l2_normalize,
   c.combine_type, c.activation⟩

/-- Modelled from the spec: Keras default `from_config` for
`GraphSAGENextState`. -/
def GraphSAGENextState.from_config (c : NextStateConfig) : GraphSAGENextState :=
  ⟨c.units, c.use_bias, c.dropout_rate, c.feature_name, c.l2_normalize,
   c.combine_type, c.activation⟩

/-- C9: for every instance of the four parameterized layer classes,
serializing via `get_config` and rebuilding via `from_config` reproduces
every named constructor argument without loss (for the two convolutions the
reconstruction also passes the constructor validation). -/
theorem config_roundtrip_exact :
    (∀ c : GraphSAGEAggregatorConv, GraphSAGEAggregatorConv.from_config c.get_config = Except.ok c) ∧
    (∀ c : GraphSAGEPoolingConv, GraphSAGEPoolingConv.from_config c.get_config = Except.ok c) ∧
    (∀ c : GCNGraphSAGENodeSetUpdate, GCNGraphSAGENodeSetUpdate.from_config c.get_config = c) ∧
    (∀ c : GraphSAGENextState, GraphSAGENextState.from_config c.get_config = c) :=
  ⟨fun _ => rfl, fun _ => rfl, fun _ => rfl, fun _ => rfl⟩

theorem context_msg_ne (ct : String) :
    ("unknown combine type: " ++ ct) ≠ "Input from context is not supported by GraphSAGENextState" := by
  intro h
  have h2 := congrArg (fun s => s.data.head?) h
  simp only [String.data_append] at h2
  simp at h2

/-- C7: a `GraphSAGENextState` call with any context input in the third
position fails with the context configuration error, and a call whose third
position is empty never raises that error (whatever else it does). -/
theorem graphsage_next_state_context_input (cfg : GraphSAGENextState)
    (sk : List Vec) (b : Vec) (rsqrt : ℚ → ℚ) (mask : ℕ → ℕ → ℚ) (x : Tensor)
    (m ctx : List (String × Tensor)) (tr : Bool) :
    (ctx ≠ [] → cfg.call sk b rsqrt mask (x, m, ctx) tr =
      .error (.valueError "Input from context is not supported by GraphSAGENextState")) ∧
    (ctx = [] → cfg.call sk b rsqrt mask (x, m, ctx) tr ≠
      .error (.valueError "Input from context is not supported by GraphSAGENextState")) := by
  constructor
  · intro h
    simp [GraphSAGENextState.call, h]
  · intro h hcontra
    subst h
    rw [GraphSAGENextState.call] at hcontra
    simp only [ne_eq, not_true_eq_false, if_neg, reduceIte] at hcontra
    rw [combineValues] at hcontra
    by_cases hs : cfg.combine_type = "sum"
    · rw [if_pos hs] at hcontra
      simp at hcontra
    · rw [if_neg hs] at hcontra
      by_cases hc : cfg.combine_type = "concat"
      · rw [if_pos hc] at hcontra
        simp at hcontra
      · rw [if_neg hc] at hcontra
        have := Except.error.inj hcontra
        exact context_msg_ne cfg.combine_type (PyErr.valueError.inj this)

/-- Closed witness for the context-error theorem at a concrete input. -/
theorem graphsage_next_state_context_input_witness :
    (GraphSAGENextState.call ⟨2, false, 0, "h", false, "sum", id⟩ [] [] id (fun _ _ => 1)
        ([[1, 2]], [], [("ctx", [[3]])]) false =
      .error (.valueError "Input from context is not supported by GraphSAGENextState")) ∧
    (GraphSAGENextState.call ⟨2, false, 0, "h", false, "sum", id⟩ [] [] id (fun _ _ => 1)
        ([[1, 2]], [], []) false ≠
      .error (.valueError "Input from context is not supported by GraphSAGENextState")) :=
  ⟨(graphsage_next_state_context_input ⟨2, false, 0, "h", false, "sum", id⟩ [] [] id
      (fun _ _ => 1) [[1, 2]] [] [("ctx", [[3]])] false).1 (by decide),
   (graphsage_next_state_context_input ⟨2, false, 0, "h", false, "sum", id⟩ [] [] id
      (fun _ _ => 1) [[1, 2]] [] [] false).2 rfl⟩

/-- C4: the output of a `GraphSAGENextState` call is invariant to the
iteration order of the edge-set-keyed input mapping, because the edge-set
names are sorted internally before combination. -/
theorem graphsage_next_state_order_invariant (cfg : GraphSAGENextState)
    (sk : List Vec) (b : Vec) (rsqrt : ℚ → ℚ) (mask : ℕ → ℕ → ℚ) (x : Tensor)
    (m₁ m₂ ctx : List (String × Tensor)) (tr : Bool)
    (hperm : m₁.Perm m₂) (hnd : (m₁.map Prod.fst).Nodup) :
    cfg.call sk b rsqrt mask (x, m₁, ctx) tr = cfg.call sk b rsqrt mask (x, m₂, ctx) tr := by
  simp only [GraphSAGENextState.call]
  rw [sortPairs_eq_of_perm hperm hnd]

/-- Closed witness for order invariance on a two-edge-set mapping given in
the two possible orders. -/
theorem graphsage_next_state_order_invariant_witness :
    GraphSAGENextState.call ⟨1, false, 0, "h", false, "sum", id⟩ [[1]] [] id (fun _ _ => 1)
        ([[3]], [("b", [[2]]), ("a", [[1]])], []) false =
      GraphSAGENextState.call ⟨1, false, 0, "h", false, "sum", id⟩ [[1]] [] id (fun _ _ => 1)
        ([[3]], [("a", [[1]]), ("b", [[2]])], []) false :=
  graphsage_next_state_order_invariant ⟨1, false, 0, "h", false, "sum", id⟩ [[1]] [] id
    (fun _ _ => 1) [[3]] [("b", [[2]]), ("a", [[1]])] [("a", [[1]]), ("b", [[2]])] [] false
    (by decide) (by decide)

theorem length_maskRow (rate : ℚ) (m : ℕ → ℚ) : ∀ (j : ℕ) (v : Vec),
    (maskRow rate m j v).length = v.length := by
  intro j v
  induction v generalizing j with
  | nil => rfl
  | cons a t ih => simp [maskRow, ih]

theorem length_maskT (rate : ℚ) (mask : ℕ → ℕ → ℚ) : ∀ (i : ℕ) (t : Tensor),
    (maskT rate mask i t).length = t.length := by
  intro i t
  induction t generalizing i with
  | nil => rfl
  | cons r rs ih => simp [maskT, ih]

theorem length_dropout (rate : ℚ) (mask : ℕ → ℕ → ℚ) (eff : Bool) (x : Tensor) :
    (dropout rate mask eff x).length = x.length := by
  unfold dropout
  by_cases h : eff = true ∧ rate ≠ 0
  · rw [if_pos h]; exact length_maskT rate mask 0 x
  · rw [if_neg h]

theorem length_denseNoBias (cols : List Vec) (x : Tensor) :
    (denseNoBias cols x).length = x.length := by
  simp [denseNoBias]

theorem length_transformRow (cols : List Vec) (r : Vec) :
    (transformRow cols r).length = cols.length := by
  simp [transformRow]

theorem width_denseNoBias (cols : List Vec) (x : Tensor) :
    ∀ r ∈ denseNoBias cols x, r.length = cols.length := by
  intro r hr
  rcases List.mem_map.mp hr with ⟨s, _, rfl⟩
  exact length_transformRow cols s

theorem length_addVec (a b : Vec) : (addVec a b).length = min a.length b.length := by
  simp [addVec]

theorem mem_zipWith {α β γ : Type} {f : α → β → γ} :
    ∀ {l₁ : List α} {l₂ : List β} {c : γ}, c ∈ List.zipWith f l₁ l₂ →
      ∃ a ∈ l₁, ∃ b ∈ l₂, c = f a b := by
  intro l₁
  induction l₁ with
  | nil => intro l₂ c h; simp at h
  | cons a t ih =>
      intro l₂ c h
      cases l₂ with
      | nil => simp at h
      | cons b u =>
          rcases List.mem_cons.mp h with h | h
          · exact ⟨a, List.mem_cons_self a t, b, List.mem_cons_self b u, h⟩
          · rcases ih h with ⟨a2, ha, b2, hb, rfl⟩
            exact ⟨a2, List.mem_cons_of_mem a ha, b2, List.mem_cons_of_mem b hb, rfl⟩

theorem width_addT {d : ℕ} {a b : Tensor} (ha : ∀ r ∈ a, r.length = d)
    (hb : ∀ r ∈ b, r.length = d) : ∀ r ∈ addT a b, r.length = d := by
  intro r hr
  rcases mem_zipWith hr with ⟨p, hp, q, hq, rfl⟩
  simp [length_addVec, ha p hp, hb q hq]

theorem width_foldl_addT {d : ℕ} : ∀ (ts : List Tensor) (acc : Tensor),
    (∀ r ∈ acc, r.length = d) → (∀ t ∈ ts, ∀ r ∈ t, r.length = d) →
    ∀ r ∈ ts.foldl addT acc, r.length = d := by
  intro ts
  induction ts with
  | nil => intro acc hacc _ r hr; exact hacc r hr
  | cons u us ih =>
      intro acc hacc h r hr
      exact ih (addT acc u) (width_addT hacc (h u (List.mem_cons_self u us)))
        (fun t ht => h t (List.mem_cons_of_mem u ht)) r hr

theorem width_addN {d : ℕ} : ∀ {ts : List Tensor},
    (∀ t ∈ ts, ∀ r ∈ t, r.length = d) → ∀ r ∈ addN ts, r.length = d := by
  intro ts
  cases ts with
  | nil => intro _ r hr; simp [addN] at hr
  | cons t rest =>
      intro h
      exact width_foldl_addT rest t (h t (List.mem_cons_self t rest))
        (fun u hu => h u (List.mem_cons_of_mem t hu))

theorem width_addBias {d : ℕ} {b : Vec} {t : Tensor} (hb : b.length = d)
    (ht : ∀ r ∈ t, r.length = d) : ∀ r ∈ addBias b t, r.length = d := by
  intro r hr
  rcases List.mem_map.mp hr with ⟨s, hs, rfl⟩
  simp [length_addVec, ht s hs, hb]

theorem width_mapT {d : ℕ} {f : ℚ → ℚ} {t : Tensor} (ht : ∀ r ∈ t, r.length = d) :
    ∀ r ∈ mapT f t, r.length = d := by
  intro r hr
  rcases List.mem_map.mp hr with ⟨s, hs, rfl⟩
  simp [ht s hs]

theorem width_l2NormalizeRows {d : ℕ} {rsqrt : ℚ → ℚ} {t : Tensor}
    (ht : ∀ r ∈ t, r.length = d) : ∀ r ∈ l2NormalizeRows rsqrt t, r.length = d := by
  intro r hr
  rcases List.mem_map.mp hr with ⟨s, hs, rfl⟩
  simp [ht s hs]

theorem dot_zeroVec (d : ℕ) (c : Vec) : dot (zeroVec d) c = 0 := by
  induction d generalizing c with
  | zero => simp [dot, zeroVec]
  | succ n ih =>
      cases c with
      | nil => simp [dot]
      | cons b t =>
          have h0 : dot (zeroVec (n + 1)) (b :: t) = 0 * b + dot (zeroVec n) t := rfl
          rw [h0, ih t]
          ring

theorem dot_addVec (a b c : Vec) (h : a.length = b.length) :
    dot (addVec a b) c = dot a c + dot b c := by
  induction a generalizing b c with
  | nil =>
      cases b with
      | nil => simp [dot, addVec]
      | cons y u => simp at h
  | cons x t ih =>
      cases b with
      | nil => simp at h
      | cons y u =>
          cases c with
          | nil => simp [dot, addVec]
          | cons z w =>
              have := ih u w (by simpa using h)
              simp [dot, addVec] at this ⊢
              rw [this]
              ring

theorem dot_div (a c : Vec) (k : ℚ) :
    dot (a.map (fun v => v / k)) c = dot a c / k := by
  induction a generalizing c with
  | nil => simp [dot]
  | cons x t ih =>
      cases c with
      | nil => simp [dot]
      | cons z w =>
          have h1 : dot ((x :: t).map (fun v => v / k)) (z :: w) =
              x / k * z + dot (t.map (fun v => v / k)) w := rfl
          have h2 : dot (x :: t) (z :: w) = x * z + dot t w := rfl
          rw [h1, h2, ih w]
          ring

theorem transformRow_zero (cols : List Vec) (d : ℕ) :
    transformRow cols (zeroVec d) = zeroVec cols.length := by
  induction cols with
  | nil => rfl
  | cons c cs ih =>
      show dot (zeroVec d) c :: transformRow cs (zeroVec d) = zeroVec (cs.length + 1)
      rw [dot_zeroVec, ih]
      rfl

theorem transformRow_addVec (cols : List Vec) (a b : Vec) (h : a.length = b.length) :
    transformRow cols (addVec a b) = addVec (transformRow cols a) (transformRow cols b) := by
  induction cols with
  | nil => rfl
  | cons c cs ih =>
      show dot (addVec a b) c :: transformRow cs (addVec a b) =
        addVec (dot a c :: transformRow cs a) (dot b c :: transformRow cs b)
      rw [ih, dot_addVec a b c h]
      rfl

theorem transformRow_div (cols : List Vec) (a : Vec) (k : ℚ) :
    transformRow cols (a.map (fun v => v / k)) = (transformRow cols a).map (fun v => v / k) := by
  induction cols with
  | nil => rfl
  | cons c cs ih =>
      show dot (a.map (fun v => v / k)) c :: transformRow cs (a.map (fun v => v / k)) =
        (dot a c :: transformRow cs a).map (fun v => v / k)
      rw [ih, dot_div a c k]
      rfl

theorem addVec_zeroVec_left (v : Vec) (d : ℕ) (h : v.length = d) :
    addVec (zeroVec d) v = v := by
  subst h
  induction v with
  | nil => rfl
  | cons x t ih =>
      show ((0 : ℚ) + x) :: addVec (zeroVec t.length) t = x :: t
      rw [zero_add, ih]

theorem map_getD_range {α : Type} (l : List α) (d : α) :
    (List.range l.length).map (fun i => l.getD i d) = l := by
  induction l with
  | nil => rfl
  | cons a t ih =>
      show (List.range (t.length + 1)).map _ = _
      rw [List.range_succ_eq_map, List.map_cons, List.map_map]
      have hcomp : ((fun i => (a :: t).getD i d) ∘ Nat.succ) = fun i => t.getD i d := by
        funext i
        simp [List.getD_cons_succ]
      rw [hcomp, ih]
      rfl

theorem call_reduce (cfg : GraphSAGENextState) (sk : List Vec) (b : Vec)
    (rsqrt : ℚ → ℚ) (mask : ℕ → ℕ → ℚ) (x : Tensor) (m : List (String × Tensor))
    (tr : Bool) (h : cfg.combine_type = "sum" ∨ cfg.combine_type = "concat") :
    cfg.call sk b rsqrt mask (x, m, []) tr =
      .ok [(cfg.feature_name,
        (fun u => if cfg.l2_normalize then l2NormalizeRows rsqrt u else u)
          (mapT cfg.activation
            ((fun u => if cfg.use_bias then addBias b u else u)
              ((if cfg.combine_type = "sum" then addN else concatFeatures)
                (denseNoBias sk (dropout cfg.dropout_rate mask tr x)
                  :: (sortPairs m).map (·.2))))))] := by
  rcases h with h | h
  · simp [GraphSAGENextState.call, combineValues, h]
  · simp [GraphSAGENextState.call, combineValues, h]

theorem mem_concatFeatures {t0 : Tensor} {ts : List Tensor} {r : Vec}
    (hr : r ∈ concatFeatures (t0 :: ts)) :
    ∃ i, i < t0.length ∧ r = (((t0 :: ts).map (fun u => u.getD i [])).flatten) := by
  rcases List.mem_map.mp hr with ⟨i, hi, rfl⟩
  exact ⟨i, List.mem_range.mp hi, rfl⟩

theorem length_flatten_getD_cons (t0 : Tensor) (ts : List Tensor) (i : ℕ) :
    ((((t0 :: ts).map (fun u => u.getD i [])).flatten).length) =
      (t0.getD i []).length + (ts.map (fun u => (u.getD i []).length)).sum := by
  rw [List.length_flatten, List.map_map]
  rfl

instance exceptDecEq {ε α : Type} [DecidableEq ε] [DecidableEq α] :
    DecidableEq (Except ε α) := fun x y =>
  match x, y with
  | .ok a, .ok b =>
      if h : a = b then isTrue (by rw [h])
      else isFalse (fun hc => h (Except.ok.inj hc))
  | .error a, .error b =>
      if h : a = b then isTrue (by rw [h])
      else isFalse (fun hc => h (Except.error.inj hc))
  | .ok _, .error _ => isFalse (fun hc => Except.noConfusion hc)
  | .error _, .ok _ => isFalse (fun hc => Except.noConfusion hc)

/-- C2: the shape contract of the combiner.  In `sum` mode the output
feature width is exactly `units`; in `concat` mode it is `units` plus the
sum of the per-edge-set feature widths, and the first `units` columns of
the pre-bias, pre-activation combined tensor equal the self-transform
output exactly. -/
theorem graphsage_next_state_width (cfg : GraphSAGENextState) (sk : List Vec)
    (b : Vec) (rsqrt : ℚ → ℚ) (mask : ℕ → ℕ → ℚ) (x : Tensor)
    (m : List (String × Tensor)) (tr : Bool) (t : Tensor)
    (hk : sk.length = cfg.units) :
    (cfg.combine_type = "sum" →
      (∀ p ∈ m, ∀ r ∈ p.2, r.length = cfg.units) →
      (cfg.use_bias = true → b.length = cfg.units) →
      cfg.call sk b rsqrt mask (x, m, []) tr = .ok [(cfg.feature_name, t)] →
      ∀ r ∈ t, r.length = cfg.units) ∧
    (∀ wds : String → ℕ,
      cfg.combine_type = "concat" →
      (∀ p ∈ m, p.2.length = x.length ∧ ∀ r ∈ p.2, r.length = wds p.1) →
      (cfg.use_bias = true → b.length = cfg.units + (m.map (fun p => wds p.1)).sum) →
      cfg.call sk b rsqrt mask (x, m, []) tr = .ok [(cfg.feature_name, t)] →
      ∀ r ∈ t, r.length = cfg.units + (m.map (fun p => wds p.1)).sum) ∧
    (cfg.combine_type = "concat" →
      (concatFeatures (denseNoBias sk (dropout cfg.dropout_rate mask tr x)
          :: (sortPairs m).map (·.2))).map (List.take cfg.units) =
        denseNoBias sk (dropout cfg.dropout_rate mask tr x)) := by
  refine ⟨?_, ?_, ?_⟩
  · -- sum mode width
    intro hsum hm hb hcall
    rw [call_reduce cfg sk b rsqrt mask x m tr (Or.inl hsum), if_pos hsum] at hcall
    simp only [Except.ok.injEq, List.cons.injEq, Prod.mk.injEq, true_and, and_true] at hcall
    subst hcall
    have hwidths : ∀ u ∈ (denseNoBias sk (dropout cfg.dropout_rate mask tr x)
        :: (sortPairs m).map (·.2)), ∀ r ∈ u, r.length = cfg.units := by
      intro u hu
      rcases List.mem_cons.mp hu with hu | hu
      · subst hu
        intro r hr
        rw [width_denseNoBias _ _ r hr, hk]
      · rcases List.mem_map.mp hu with ⟨p, hp, rfl⟩
        exact hm p ((sortPairs_perm m).mem_iff.mp hp)
    have h1 := width_addN hwidths
    have h2 : ∀ r ∈ (if cfg.use_bias then
        addBias b (addN (denseNoBias sk (dropout cfg.dropout_rate mask tr x)
          :: (sortPairs m).map (·.2))) else
        addN (denseNoBias sk (dropout cfg.dropout_rate mask tr x)
          :: (sortPairs m).map (·.2))), r.length = cfg.units := by
      by_cases hub : cfg.use_bias
      · rw [if_pos hub]
        exact width_addBias (hb hub) h1
      · rw [if_neg hub]
        exact h1
    have h3 := width_mapT (f := cfg.activation) h2
    by_cases hl2 : cfg.l2_normalize
    · rw [if_pos hl2]
      exact width_l2NormalizeRows h3
    · rw [if_neg hl2]
      exact h3
  · -- concat mode width
    intro wds hconcat hm hb hcall
    rw [call_reduce cfg sk b rsqrt mask x m tr (Or.inr hconcat), if_neg (by rw [hconcat]; decide)] at hcall
    simp only [Except.ok.injEq, List.cons.injEq, Prod.mk.injEq, true_and, and_true] at hcall
    subst hcall
    have hwidth_concat : ∀ r ∈ concatFeatures (denseNoBias sk (dropout cfg.dropout_rate mask tr x)
        :: (sortPairs m).map (·.2)), r.length = cfg.units + (m.map (fun p => wds p.1)).sum := by
      intro r hr
      rcases mem_concatFeatures hr with ⟨i, hi, rfl⟩
      have hself : ((denseNoBias sk (dropout cfg.dropout_rate mask tr x)).getD i []).length =
          cfg.units := by
        rw [List.getD_eq_getElem _ _ hi]
        rw [width_denseNoBias _ _ _ (List.getElem_mem hi), hk]
      rw [length_flatten_getD_cons, hself]
      congr 1
      have hrows : ∀ p ∈ sortPairs m, ((p.2.getD i []).length) = wds p.1 := by
        intro p hp
        have hpm : p ∈ m := (sortPairs_perm m).mem_iff.mp hp
        have hlen : p.2.length = x.length := (hm p hpm).1
        have hix : i < p.2.length := by
          rw [hlen]
          rw [length_denseNoBias, length_dropout] at hi
          exact hi
        rw [List.getD_eq_getElem _ _ hix]
        exact (hm p hpm).2 _ (List.getElem_mem hix)
      rw [List.map_map]
      calc ((sortPairs m).map ((fun u => (u.getD i []).length) ∘ Prod.snd)).sum
          = ((sortPairs m).map (fun p => wds p.1)).sum := by
            apply congrArg
            exact List.map_congr_left hrows
        _ = (m.map (fun p => wds p.1)).sum := ((sortPairs_perm m).map _).sum_eq
    have h2 : ∀ r ∈ (if cfg.use_bias then
        addBias b (concatFeatures (denseNoBias sk (dropout cfg.dropout_rate mask tr x)
          :: (sortPairs m).map (·.2))) else
        concatFeatures (denseNoBias sk (dropout cfg.dropout_rate mask tr x)
          :: (sortPairs m).map (·.2))),
        r.length = cfg.units + (m.map (fun p => wds p.1)).sum := by
      by_cases hub : cfg.use_bias
      · rw [if_pos hub]
        exact width_addBias (hb hub) hwidth_concat
      · rw [if_neg hub]
        exact hwidth_concat
    have h3 := width_mapT (f := cfg.activation) h2
    by_cases hl2 : cfg.l2_normalize
    · rw [if_pos hl2]
      exact width_l2NormalizeRows h3
    · rw [if_neg hl2]
      exact h3
  · -- concat mode: first units columns are the self-transform output
    intro _
    rw [concatFeatures, List.map_map]
    have hpt : ∀ i ∈ List.range (denseNoBias sk (dropout cfg.dropout_rate mask tr x)).length,
        (List.take cfg.units ∘ fun i =>
          (((denseNoBias sk (dropout cfg.dropout_rate mask tr x)
            :: (sortPairs m).map (·.2)).map (fun u => u.getD i [])).flatten)) i =
        (denseNoBias sk (dropout cfg.dropout_rate mask tr x)).getD i [] := by
      intro i hi
      have hi2 := List.mem_range.mp hi
      have hlen : ((denseNoBias sk (dropout cfg.dropout_rate mask tr x)).getD i []).length =
          cfg.units := by
        rw [List.getD_eq_getElem _ _ hi2]
        rw [width_denseNoBias _ _ _ (List.getElem_mem hi2), hk]
      simp only [Function.comp, List.map_cons, List.flatten_cons]
      rw [← hlen, List.take_left]
    rw [List.map_congr_left hpt]
    exact map_getD_range _ []

/-- Closed witness for the shape contract: a concrete sum-mode call and a
concrete concat-mode call of the combiner. -/
theorem graphsage_next_state_width_witness :
    ([(12 : ℚ)] : Vec).length = 1 ∧ ([(5 : ℚ), 7] : Vec).length = 1 + 1 := by
  constructor
  · exact (graphsage_next_state_width ⟨1, false, 0, "h", false, "sum", id⟩ [[1]] [] id
      (fun _ _ => 1) [[5]] [("e", [[7]])] false [[12]] rfl).1 rfl
      (by decide) (by simp)
      (by simp [GraphSAGENextState.call, combineValues, denseNoBias, transformRow, dot,
            dropout, sortPairs, insertByKey, addN, addT, addVec, mapT] <;> norm_num)
      [12] (by decide)
  · exact (graphsage_next_state_width ⟨1, false, 0, "h", false, "concat", id⟩ [[1]] [] id
      (fun _ _ => 1) [[5]] [("e", [[7]])] false [[5, 7]] rfl).2.1 (fun _ => 1) rfl
      (by decide) (by simp)
      (by simp [GraphSAGENextState.call, combineValues, denseNoBias, transformRow, dot,
            dropout, sortPairs, insertByKey, concatFeatures, mapT, List.range_succ] <;> norm_num)
      [5, 7] (by decide)

theorem mapT_id (t : Tensor) : mapT id t = t := by
  simp [mapT]

/-- The 3-node scenario graph of the spec: one node set `nodes` carrying
the state tensor, one edge set `edges` with the two edges 1 -> 0 and
2 -> 0. -/
def scenarioGraph (x : Tensor) : GraphTensor :=
  ⟨[("nodes", ⟨3, [("hidden_state", x)]⟩)],
   [("edges", ⟨⟨"nodes", "nodes", [1, 2], [0, 0]⟩⟩)]⟩

/-- The elementwise aggregator of the scenario: `reduce_type="mean"`,
`units=4`, receiver tag TARGET, wired to the scenario graph through the
framework broadcast and pool callables. -/
def scenarioAgg (nk : List Vec) (x : Tensor) : Except PyErr Tensor :=
  GraphSAGEAggregatorConv.convolve ⟨.TARGET, "mean", "hidden_state", 4, 0⟩ nk
    (fun _ _ => 1) (some x)
    (broadcastNodeToEdges (scenarioGraph x) "edges" .SOURCE)
    (fun t rt => poolEdgesToNode (scenarioGraph x) "edges" .TARGET rt 4 t) false

/-- C1: a `GraphSAGENextState` call with empty context input returns a
single-entry feature bag keyed by the configured feature name whose tensor
is dropout, then self-transform, then combination with the sorted edge-set
inputs, then bias, then activation, then L2 normalization, in this order;
and on the 3-node scenario graph (edges 1 -> 0, 2 -> 0, mean aggregator,
sum combiner, no bias, no activation, no normalization) node 0 becomes
`self_transform(x0) + mean(transform(x1), transform(x2))` while nodes 1
and 2 become `self_transform(x) + 0`. -/
theorem graphsage_next_state_pipeline_and_scenario :
    (∀ (cfg : GraphSAGENextState) (sk : List Vec) (b : Vec) (rsqrt : ℚ → ℚ)
      (mask : ℕ → ℕ → ℚ) (x : Tensor) (m : List (String × Tensor)) (tr : Bool),
      cfg.combine_type = "sum" ∨ cfg.combine_type = "concat" →
      cfg.call sk b rsqrt mask (x, m, []) tr = .ok [(cfg.feature_name,
        (fun u => if cfg.l2_normalize then l2NormalizeRows rsqrt u else u)
          (mapT cfg.activation
            ((fun u => if cfg.use_bias then addBias b u else u)
              ((if cfg.combine_type = "sum" then addN else concatFeatures)
                (denseNoBias sk (dropout cfg.dropout_rate mask tr x)
                  :: (sortPairs m).map (·.2))))))]) ∧
    (∀ (sk nk : List Vec) (x0 x1 x2 : Vec) (agg : Tensor),
      nk.length = 4 → x1.length = 4 → x2.length = 4 →
      scenarioAgg nk [x0, x1, x2] = .ok agg →
      GraphSAGENextState.call ⟨4, false, 0, "hidden_state", false, "sum", id⟩ sk [] id
          (fun _ _ => 1) ([x0, x1, x2], [("edges", agg)], []) false =
        .ok [("hidden_state",
          [addVec (transformRow sk x0)
             ((addVec (transformRow nk x1) (transformRow nk x2)).map (fun v => v / 2)),
           addVec (transformRow sk x1) (zeroVec 4),
           addVec (transformRow sk x2) (zeroVec 4)])]) := by
  constructor
  · exact fun cfg sk b rsqrt mask x m tr h => call_reduce cfg sk b rsqrt mask x m tr h
  · intro sk nk x0 x1 x2 agg hnk hx1 hx2 hagg
    have hagg2 : scenarioAgg nk [x0, x1, x2] =
        .ok (denseNoBias nk (poolMean 3 4 [0, 0] [x1, x2])) := rfl
    rw [hagg2] at hagg
    have hagg3 : agg = denseNoBias nk (poolMean 3 4 [0, 0] [x1, x2]) :=
      (Except.ok.inj hagg).symm
    have hpool : poolMean 3 4 [0, 0] [x1, x2] =
        [(addVec (addVec (zeroVec 4) x1) x2).map (fun v => v / ((2 : ℕ) : ℚ)),
         zeroVec 4, zeroVec 4] := rfl
    have hcast : ((2 : ℕ) : ℚ) = 2 := by norm_num
    rw [hpool, addVec_zeroVec_left x1 4 hx1, hcast] at hagg3
    have haggval : agg =
        [(addVec (transformRow nk x1) (transformRow nk x2)).map (fun v => v / 2),
         zeroVec 4, zeroVec 4] := by
      rw [hagg3]
      show [transformRow nk ((addVec x1 x2).map (fun v => v / 2)),
            transformRow nk (zeroVec 4), transformRow nk (zeroVec 4)] = _
      rw [transformRow_div, transformRow_addVec nk x1 x2 (by rw [hx1, hx2]),
        transformRow_zero, hnk]
    subst haggval
    rw [call_reduce _ sk [] id (fun _ _ => 1) [x0, x1, x2] _ false (Or.inl rfl)]
    show Except.ok [("hidden_state", mapT id (addN [denseNoBias sk [x0, x1, x2], _]))] = _
    rw [mapT_id]
    rfl

/-- Closed witness for the pipeline-and-scenario theorem at concrete
numeric states and kernels. -/
theorem graphsage_next_state_pipeline_and_scenario_witness :
    GraphSAGENextState.call ⟨4, false, 0, "hidden_state", false, "sum", id⟩
        [[1, 0, 0, 0], [0, 1, 0, 0], [0, 0, 1, 0], [0, 0, 0, 1]]
        [] id (fun _ _ => 1)
        ([[1, 0, 0, 0], [0, 2, 0, 0], [0, 4, 0, 0]],
         [("edges",
            [[0, 3, 0, 0], [0, 0, 0, 0], [0, 0, 0, 0]])], []) false =
      .ok [("hidden_state",
        [addVec (transformRow [[1, 0, 0, 0], [0, 1, 0, 0], [0, 0, 1, 0], [0, 0, 0, 1]] [1, 0, 0, 0])
           ((addVec
              (transformRow [[1, 0, 0, 0], [0, 1, 0, 0], [0, 0, 1, 0], [0, 0, 0, 1]] [0, 2, 0, 0])
              (transformRow [[1, 0, 0, 0], [0, 1, 0, 0], [0, 0, 1, 0], [0, 0, 0, 1]] [0, 4, 0, 0])).map
             (fun v => v / 2)),
         addVec (transformRow [[1, 0, 0, 0], [0, 1, 0, 0], [0, 0, 1, 0], [0, 0, 0, 1]] [0, 2, 0, 0])
           (zeroVec 4),
         addVec (transformRow [[1, 0, 0, 0], [0, 1, 0, 0], [0, 0, 1, 0], [0, 0, 0, 1]] [0, 4, 0, 0])
           (zeroVec 4)])] :=
  (graphsage_next_state_pipeline_and_scenario.2
    [[1, 0, 0, 0], [0, 1, 0, 0], [0, 0, 1, 0], [0, 0, 0, 1]]
    [[1, 0, 0, 0], [0, 1, 0, 0], [0, 0, 1, 0], [0, 0, 0, 1]]
    [1, 0, 0, 0] [0, 2, 0, 0] [0, 4, 0, 0]
    [[0, 3, 0, 0], [0, 0, 0, 0], [0, 0, 0, 0]]
    rfl rfl rfl
    (by simp [scenarioAgg, GraphSAGEAggregatorConv.convolve, broadcastNodeToEdges,
          scenarioGraph, poolEdgesToNode, poolMean, denseNoBias, transformRow, dot,
          dropout, lookup, Adjacency.endpoints, Adjacency.node_set_name, zeroVec,
          addVec, List.range_succ] <;> norm_num))

/-- C8: with `use_bias`, the bias created by `build` is the zero vector of
length `units` in `sum` mode and of length `units` plus the summed
feature widths in `concat` mode; in `concat` mode a rank other than 2 or an
undefined feature axis is rejected with the validation error; and the
framework build-once protocol runs `build` exactly on the first call and
never again. -/
theorem graphsage_next_state_bias_build (cfg : GraphSAGENextState)
    (shapes : List (String × Shape)) (hb : cfg.use_bias = true) :
    (cfg.combine_type = "sum" → cfg.build shapes = .ok (some (zeroVec cfg.units))) ∧
    (cfg.combine_type = "concat" →
      ((∀ p ∈ shapes, p.2.length = 2 ∧ (p.2.getD 1 none).isSome = true) →
        cfg.build shapes =
          .ok (some (zeroVec (cfg.units + ((shapes.map (·.2)).map featDim).sum)))) ∧
      ((∃ p ∈ shapes, ¬(p.2.length = 2 ∧ (p.2.getD 1 none).isSome = true)) →
        cfg.build shapes = .error (.valueError "Invalid shape for edge inputs."))) ∧
    (∀ st : LayerState, st.built = false →
      ensureBuilt cfg st shapes = (cfg.build shapes).map (fun b => (⟨true, b⟩ : LayerState))) ∧
    (∀ st : LayerState, st.built = true → ensureBuilt cfg st shapes = .ok st) := by
  refine ⟨?_, ?_, ?_, ?_⟩
  · intro hsum
    rw [GraphSAGENextState.build, if_pos hb, if_pos hsum]
  · intro hconcat
    constructor
    · intro hgood
      rw [GraphSAGENextState.build, if_pos hb, if_neg (by rw [hconcat]; decide), if_pos hconcat]
      rw [if_neg]
      intro hany
      rcases List.any_eq_true.mp hany with ⟨s, hs, hcond⟩
      rcases List.mem_map.mp hs with ⟨p, hp, rfl⟩
      rcases hgood p hp with ⟨hlen, hsome⟩
      rw [Bool.or_eq_true, bne_iff_ne, Option.isNone_iff_eq_none] at hcond
      rcases hcond with h | h
      · exact h hlen
      · rw [h] at hsome
        exact Bool.noConfusion hsome
    · intro hbad
      rw [GraphSAGENextState.build, if_pos hb, if_neg (by rw [hconcat]; decide), if_pos hconcat]
      rw [if_pos]
      rcases hbad with ⟨p, hp, hcond⟩
      refine List.any_eq_true.mpr ⟨p.2, List.mem_map.mpr ⟨p, hp, rfl⟩, ?_⟩
      rw [Bool.or_eq_true, bne_iff_ne, Option.isNone_iff_eq_none]
      by_cases hlen : p.2.length = 2
      · cases hopt : p.2.getD 1 none with
        | none => exact Or.inr rfl
        | some a => exact absurd ⟨hlen, by rw [hopt]; rfl⟩ hcond
      · exact Or.inl hlen
  · intro st hst
    rw [ensureBuilt, if_neg (by rw [hst]; decide)]
    cases cfg.build shapes with
    | error e => rfl
    | ok b => rfl
  · intro st hst
    rw [ensureBuilt, if_pos hst]

/-- Closed witness for the bias-build theorem: a sum-mode build, a
well-shaped concat-mode build and a badly shaped concat-mode build. -/
theorem graphsage_next_state_bias_build_witness :
    (GraphSAGENextState.build ⟨3, true, 0, "h", false, "sum", id⟩ [] =
      .ok (some (zeroVec 3))) ∧
    (GraphSAGENextState.build ⟨3, true, 0, "h", false, "concat", id⟩
        [("e", [some 2, some 5])] =
      .ok (some (zeroVec (3 + ((([("e", ([some 2, some 5] : Shape))].map (·.2)).map featDim).sum))))) ∧
    (GraphSAGENextState.build ⟨3, true, 0, "h", false, "concat", id⟩
        [("e", [some 2, none])] =
      .error (.valueError "Invalid shape for edge inputs.")) :=
  ⟨(graphsage_next_state_bias_build ⟨3, true, 0, "h", false, "sum", id⟩ [] rfl).1 rfl,
   ((graphsage_next_state_bias_build ⟨3, true, 0, "h", false, "concat", id⟩
      [("e", [some 2, some 5])] rfl).2.1 rfl).1 (by decide),
   ((graphsage_next_state_bias_build ⟨3, true, 0, "h", false, "concat", id⟩
      [("e", [some 2, none])] rfl).2.1 rfl).2 ⟨("e", [some 2, none]), by decide, by decide⟩⟩

/-- C5: a `ResidualNextState` is constructed without any shape validation;
at call time a feature bag missing the configured skip key fails with the
lookup error, an incompatible residual-block output shape fails with the
shape error, and otherwise the activation is applied after adding the block
output to the skip feature. -/
theorem residual_next_state_spec (block : Tensor → Tensor) (act : ℚ → ℚ)
    (fname : String) (inputs : FieldOrFields × FieldOrFields × FieldOrFields) :
    (ResidualNextState.init block act fname = .ok ⟨block, act, fname⟩) ∧
    ((ResidualNextState.mk block act fname).skipFeature inputs.1 = none →
      (ResidualNextState.mk block act fname).call inputs =
        .error (.keyError
          ("ResidualNextState() could not find the skip connection feature " ++
           fname ++ " in the features of the updated graph piece"))) ∧
    (∀ skip, (ResidualNextState.mk block act fname).skipFeature inputs.1 = some skip →
      tensorShape skip ≠ tensorShape (block (concatFeatures
        (flattenFields inputs.1 ++ flattenFields inputs.2.1 ++ flattenFields inputs.2.2))) →
      (ResidualNextState.mk block act fname).call inputs =
        .error (.valueError
          "A ResidualNextState() requires an update_fn whose output has the same shape as the input state")) ∧
    (∀ skip, (ResidualNextState.mk block act fname).skipFeature inputs.1 = some skip →
      tensorShape skip = tensorShape (block (concatFeatures
        (flattenFields inputs.1 ++ flattenFields inputs.2.1 ++ flattenFields inputs.2.2))) →
      (ResidualNextState.mk block act fname).call inputs =
        .ok (mapT act (addT (block (concatFeatures
          (flattenFields inputs.1 ++ flattenFields inputs.2.1 ++ flattenFields inputs.2.2)))
          skip))) := by
  refine ⟨rfl, ?_, ?_, ?_⟩
  · intro hnone
    rw [ResidualNextState.call, hnone]
  · intro skip hskip hne
    rw [ResidualNextState.call, hskip]
    simp only [if_pos hne]
  · intro skip hskip heq
    rw [ResidualNextState.call, hskip]
    simp only [heq, ne_eq, not_true_eq_false, if_neg, reduceIte]

/-- Closed witness for the residual-next-state theorem: a missing skip key,
a shape mismatch, and a successful residual update at concrete inputs. -/
theorem residual_next_state_spec_witness :
    ((ResidualNextState.mk (fun t => t) id "state").call
        (.bag [("other", [[1]])], .bag [], .bag []) =
      .error (.keyError
        ("ResidualNextState() could not find the skip connection feature " ++
         "state" ++ " in the features of the updated graph piece"))) ∧
    ((ResidualNextState.mk (fun _ => [[1, 2]]) id "state").call
        (.single [[1]], .bag [], .bag []) =
      .error (.valueError
        "A ResidualNextState() requires an update_fn whose output has the same shape as the input state")) ∧
    ((ResidualNextState.mk (fun t => t) id "state").call
        (.single [[1]], .bag [], .bag []) =
      .ok (mapT id (addT ((fun (t : Tensor) => t) (concatFeatures
        (flattenFields (.single [[1]]) ++ flattenFields (.bag []) ++ flattenFields (.bag []))))
        [[1]]))) :=
  ⟨(residual_next_state_spec (fun t => t) id "state"
      (.bag [("other", [[1]])], .bag [], .bag [])).2.1 (by decide),
   (residual_next_state_spec (fun _ => [[1, 2]]) id "state"
      (.single [[1]], .bag [], .bag [])).2.2.1 [[1]] (by decide) (by decide),
   (residual_next_state_spec (fun t => t) id "state"
      (.single [[1]], .bag [], .bag [])).2.2.2 [[1]] (by decide) (by decide)⟩

theorem mem_keys_insertGroup (acc : List (String × List (String × ConvKind)))
    (ns : String) (v : String × ConvKind) (k : String) :
    k ∈ (insertGroup acc ns v).map Prod.fst ↔ k ∈ acc.map Prod.fst ∨ k = ns := by
  induction acc with
  | nil => simp [insertGroup]
  | cons q qs ih =>
      rcases q with ⟨qk, ql⟩
      by_cases h : qk = ns
      · rw [insertGroup, if_pos h]
        subst h
        simp only [List.map_cons, List.mem_cons]
        tauto
      · rw [insertGroup, if_neg h]
        simp only [List.map_cons, List.mem_cons, ih]
        tauto

theorem foldl_group_keys (names : List String) (tag : Tag)
    (mk : String × EdgeSetSpec → String × ConvKind) :
    ∀ (l : List (String × EdgeSetSpec)) (acc : List (String × List (String × ConvKind)))
      (k : String),
    (k ∈ (l.foldl (fun acc2 p =>
        if p.2.node_set_name tag ∈ names then insertGroup acc2 (p.2.node_set_name tag) (mk p)
        else acc2) acc).map Prod.fst) ↔
      k ∈ acc.map Prod.fst ∨ (k ∈ names ∧ ∃ p ∈ l, p.2.node_set_name tag = k) := by
  intro l
  induction l with
  | nil => simp
  | cons p ps ih =>
      intro acc k
      rw [List.foldl_cons, ih]
      by_cases hc : p.2.node_set_name tag ∈ names
      · rw [if_pos hc, mem_keys_insertGroup]
        constructor
        · rintro ((h | h) | ⟨hk, q, hq, hname⟩)
          · exact Or.inl h
          · exact Or.inr ⟨h ▸ hc, p, List.mem_cons_self p ps, h.symm⟩
          · exact Or.inr ⟨hk, q, List.mem_cons_of_mem p hq, hname⟩
        · rintro (h | ⟨hk, q, hq, hname⟩)
          · exact Or.inl (Or.inl h)
          · rcases List.mem_cons.mp hq with hq | hq
            · exact Or.inl (Or.inr (hq ▸ hname).symm)
            · exact Or.inr ⟨hk, q, hq, hname⟩
      · rw [if_neg hc]
        constructor
        · rintro (h | ⟨hk, q, hq, hname⟩)
          · exact Or.inl h
          · exact Or.inr ⟨hk, q, List.mem_cons_of_mem p hq, hname⟩
        · rintro (h | ⟨hk, q, hq, hname⟩)
          · exact Or.inl h
          · rcases List.mem_cons.mp hq with hq | hq
            · subst hq
              exact absurd (by rw [hname]; exact hk) hc
            · exact Or.inr ⟨hk, q, hq, hname⟩

/-- C10: with a consistent `use_pooling`/`hidden_units` pairing, the
assembly callback never raises, and it creates a node-set update (with its
combiner) exactly for those node sets of `node_set_names` that receive at
least one edge set at the receiver tag; a listed node set with no such
edge set gets no update entry at all. -/
theorem graphsage_graph_update_assembly (node_set_names : List String)
    (receiver_tag : Tag) (reduce_type : String) (use_pooling use_bias : Bool)
    (dropout_rate : ℚ) (units : ℕ) (hidden_units : Option ℕ) (l2_normalize : Bool)
    (combine_type : String) (activation : ℚ → ℚ) (feature_name : String)
    (spec : GraphTensorSpec) (hpair : use_pooling = hidden_units.isSome) :
    (∀ e, GraphUpdateCallback node_set_names receiver_tag reduce_type use_pooling
        use_bias dropout_rate units hidden_units l2_normalize combine_type activation
        feature_name spec ≠ .error e) ∧
    (∀ updates, GraphUpdateCallback node_set_names receiver_tag reduce_type use_pooling
        use_bias dropout_rate units hidden_units l2_normalize combine_type activation
        feature_name spec = .ok updates →
      ∀ ns : String, (ns ∈ updates.map Prod.fst ↔
        ns ∈ node_set_names ∧
          ∃ p ∈ spec.edge_sets_spec, p.2.node_set_name receiver_tag = ns)) := by
  rw [GraphUpdateCallback, if_neg (by rw [hpair]; simp)]
  constructor
  · intro e h
    exact Except.noConfusion h
  · intro updates hupd ns
    have hupd2 := Except.ok.inj hupd
    subst hupd2
    have hkeys : ((spec.edge_sets_spec.foldl (fun acc p =>
        if p.2.node_set_name receiver_tag ∈ node_set_names then
          insertGroup acc (p.2.node_set_name receiver_tag) (p.1,
            if use_pooling then
              ConvKind.pooling
                ⟨receiver_tag, feature_name, units, hidden_units.getD 0, reduce_type,
                 use_bias, dropout_rate, relu⟩
            else
              ConvKind.aggregator ⟨receiver_tag, reduce_type, feature_name, units, dropout_rate⟩)
        else acc) []).map (fun gr => (gr.1,
          (⟨gr.2, ⟨units, use_bias, dropout_rate, feature_name, l2_normalize, combine_type,
            activation⟩⟩ : NodeSetUpdateModel)))).map Prod.fst =
        (spec.edge_sets_spec.foldl (fun acc p =>
        if p.2.node_set_name receiver_tag ∈ node_set_names then
          insertGroup acc (p.2.node_set_name receiver_tag) (p.1,
            if use_pooling then
              ConvKind.pooling
                ⟨receiver_tag, feature_name, units, hidden_units.getD 0, reduce_type,
                 use_bias, dropout_rate, relu⟩
            else
              ConvKind.aggregator ⟨receiver_tag, reduce_type, feature_name, units, dropout_rate⟩)
        else acc) []).map Prod.fst := by
      rw [List.map_map]
      rfl
    rw [hkeys]
    have := foldl_group_keys node_set_names receiver_tag
      (fun p => (p.1,
        if use_pooling then
          ConvKind.pooling
            ⟨receiver_tag, feature_name, units, hidden_units.getD 0, reduce_type,
             use_bias, dropout_rate, relu⟩
        else
          ConvKind.aggregator ⟨receiver_tag, reduce_type, feature_name, units, dropout_rate⟩))
      spec.edge_sets_spec [] ns
    simp only [List.map_nil, List.not_mem_nil, false_or] at this
    exact this

/-- Closed witness for the assembly theorem: a schema with one edge set
received by node set `a`; node set `b` is listed but receives nothing and
gets no update. -/
theorem graphsage_graph_update_assembly_witness :
    ¬(("b" : String) ∈ ([("a",
      (⟨[("e1", ConvKind.aggregator ⟨Tag.TARGET, "mean", "h", 4, 0⟩)],
        ⟨4, false, 0, "h", false, "sum", id⟩⟩ : NodeSetUpdateModel))].map Prod.fst)) :=
  fun hmem => absurd
    (((graphsage_graph_update_assembly ["a", "b"] Tag.TARGET "mean" false false 0 4 none
        false "sum" id "h" ⟨[("e1", ⟨"x", "a"⟩)]⟩ rfl).2
      [("a", ⟨[("e1", ConvKind.aggregator ⟨Tag.TARGET, "mean", "h", 4, 0⟩)],
        ⟨4, false, 0, "h", false, "sum", id⟩⟩)] rfl "b").mp hmem)
    (by decide)

theorem length_addT (a b : Tensor) : (addT a b).length = min a.length b.length := by
  simp [addT]

theorem getD_addT {a b : Tensor} {i : ℕ} (ha : i < a.length) (hb : i < b.length) :
    (addT a b).getD i [] = addVec (a.getD i []) (b.getD i []) := by
  have hl : i < (addT a b).length := by
    rw [length_addT]
    exact lt_min ha hb
  rw [List.getD_eq_getElem _ _ hl, List.getD_eq_getElem _ _ ha, List.getD_eq_getElem _ _ hb]
  exact List.getElem_zipWith

theorem foldl_addT_getD : ∀ (ts : List Tensor) (acc : Tensor) (n i : ℕ), i < n →
    acc.length = n → (∀ t ∈ ts, t.length = n) →
    (ts.foldl addT acc).length = n ∧
    (ts.foldl addT acc).getD i [] =
      (ts.map (fun t => t.getD i [])).foldl addVec (acc.getD i []) := by
  intro ts
  induction ts with
  | nil => intro acc n i _ hacc _; exact ⟨hacc, rfl⟩
  | cons u us ih =>
      intro acc n i hi hacc hts
      have hu : u.length = n := hts u (List.mem_cons_self u us)
      have hlen : (addT acc u).length = n := by
        rw [length_addT, hacc, hu]
        exact min_self n
      rcases ih (addT acc u) n i hi hlen (fun t ht => hts t (List.mem_cons_of_mem u ht)) with ⟨h1, h2⟩
      refine ⟨h1, ?_⟩
      rw [List.foldl_cons, h2, List.map_cons, List.foldl_cons,
        getD_addT (hacc ▸ hi) (hu ▸ hi)]

theorem length_addVec_eq {a b : Vec} {n : ℕ} (ha : a.length = n) (hb : b.length = n) :
    (addVec a b).length = n := by
  rw [length_addVec, ha, hb]
  exact min_self n

theorem getD_addVec {a b : Vec} {i n : ℕ} (hi : i < n) (ha : a.length = n)
    (hb : b.length = n) :
    (addVec a b).getD i 0 = a.getD i 0 + b.getD i 0 := by
  have hl : i < (addVec a b).length := by
    rw [length_addVec_eq ha hb]
    exact hi
  rw [List.getD_eq_getElem _ _ hl, List.getD_eq_getElem _ _ (ha ▸ hi),
    List.getD_eq_getElem _ _ (hb ▸ hi)]
  exact List.getElem_zipWith

theorem foldl_addVec_getD : ∀ (vs : List Vec) (acc : Vec) (n i : ℕ), i < n →
    acc.length = n → (∀ v ∈ vs, v.length = n) →
    (vs.foldl addVec acc).length = n ∧
    (vs.foldl addVec acc).getD i 0 =
      (vs.map (fun v => v.getD i 0)).foldl (· + ·) (acc.getD i 0) := by
  intro vs
  induction vs with
  | nil => intro acc n i _ hacc _; exact ⟨hacc, rfl⟩
  | cons u us ih =>
      intro acc n i hi hacc hvs
      have hu : u.length = n := hvs u (List.mem_cons_self u us)
      have hlen : (addVec acc u).length = n := length_addVec_eq hacc hu
      rcases ih (addVec acc u) n i hi hlen (fun v hv => hvs v (List.mem_cons_of_mem u hv)) with ⟨h1, h2⟩
      refine ⟨h1, ?_⟩
      rw [List.foldl_cons, h2, List.map_cons, List.foldl_cons, getD_addVec hi hacc hu]

theorem length_poolSum (n d : ℕ) (ends : List ℕ) (vals : Tensor) :
    (poolSum n d ends vals).length = n := by
  simp [poolSum]

theorem poolSum_getD {n : ℕ} (d : ℕ) (ends : List ℕ) (vals : Tensor) {i : ℕ}
    (hi : i < n) :
    (poolSum n d ends vals).getD i [] =
      (((ends.zip vals).filter (fun p => p.1 == i)).map (·.2)).foldl addVec (zeroVec d) := by
  have hl : i < (poolSum n d ends vals).length := by
    rw [length_poolSum]
    exact hi
  rw [List.getD_eq_getElem _ _ hl]
  show (List.map _ (List.range n))[i] = _
  rw [List.getElem_map, List.getElem_range]

theorem zip_broadcast_filter : ∀ (src recv : List ℕ) (vals : Tensor) (i : ℕ),
    ((recv.zip (src.map (fun e => vals.getD e []))).filter (fun pr => pr.1 == i)).map (·.2) =
      ((src.zip recv).filter (fun pr => pr.2 == i)).map (fun pr => vals.getD pr.1 []) := by
  intro src
  induction src with
  | nil => intro recv vals i; cases recv <;> rfl
  | cons s ss ih =>
      intro recv vals i
      cases recv with
      | nil => rfl
      | cons r rs =>
          show ((((r, vals.getD s []) :: rs.zip (ss.map (fun e => vals.getD e []))).filter
              (fun pr => pr.1 == i)).map (·.2)) =
            ((((s, r) :: ss.zip rs).filter (fun pr => pr.2 == i)).map
              (fun pr => vals.getD pr.1 []))
          by_cases h : r == i
          · rw [List.filter_cons_of_pos (by simpa using h),
              List.filter_cons_of_pos (by simpa using h),
              List.map_cons, List.map_cons, ih rs vals i]
          · rw [List.filter_cons_of_neg (by simpa using h),
              List.filter_cons_of_neg (by simpa using h), ih rs vals i]

theorem zip_replicate_filter : ∀ (ends : List ℕ) (i : ℕ),
    ((ends.zip (List.replicate ends.length ([(1 : ℚ)]))).filter (fun p => p.1 == i)).map (·.2) =
      List.replicate ((ends.filter (fun e => e == i)).length) [(1 : ℚ)] := by
  intro ends
  induction ends with
  | nil => intro i; rfl
  | cons e es ih =>
      intro i
      show (((e, [(1 : ℚ)]) :: es.zip (List.replicate es.length [(1 : ℚ)])).filter
        (fun p => p.1 == i)).map (·.2) = _
      by_cases h : e == i
      · rw [List.filter_cons_of_pos (by simpa using h), List.map_cons, ih,
          List.filter_cons_of_pos (by simpa using h)]
        rfl
      · rw [List.filter_cons_of_neg (by simpa using h), ih,
          List.filter_cons_of_neg (by simpa using h)]

theorem fold_ones_acc : ∀ (k : ℕ) (c : ℚ),
    (List.replicate k ([(1 : ℚ)])).foldl addVec [c] = [c + (k : ℚ)] := by
  intro k
  induction k with
  | zero => intro c; simp
  | succ j ih =>
      intro c
      show (List.replicate j ([(1 : ℚ)])).foldl addVec (addVec [c] [1]) = _
      show (List.replicate j ([(1 : ℚ)])).foldl addVec [c + 1] = _
      rw [ih (c + 1)]
      congr 1
      push_cast
      ring

theorem foldl_add_eq_sum : ∀ (l : List ℚ) (c : ℚ), l.foldl (· + ·) c = c + l.sum := by
  intro l
  induction l with
  | nil => intro c; simp
  | cons a t ih =>
      intro c
      rw [List.foldl_cons, ih, List.sum_cons]
      ring

theorem all_zero_of_sum_zero : ∀ (l : List ℚ), (∀ v ∈ l, 0 ≤ v) → l.sum = 0 →
    ∀ v ∈ l, v = 0 := by
  intro l
  induction l with
  | nil => intro _ _ v hv; simp at hv
  | cons a t ih =>
      intro hnn hsum v hv
      have ha : 0 ≤ a := hnn a (List.mem_cons_self a t)
      have ht : 0 ≤ t.sum := List.sum_nonneg (fun x hx => hnn x (List.mem_cons_of_mem a hx))
      rw [List.sum_cons] at hsum
      have ha0 : a = 0 := by linarith
      have ht0 : t.sum = 0 := by linarith
      rcases List.mem_cons.mp hv with hv | hv
      · rw [hv, ha0]
      · exact ih (fun x hx => hnn x (List.mem_cons_of_mem a hx)) ht0 v hv

theorem addVec_zeroVec_zeroVec (d : ℕ) : addVec (zeroVec d) (zeroVec d) = zeroVec d :=
  addVec_zeroVec_left (zeroVec d) d (by simp [zeroVec])

theorem map_divNoNan_zero (v : Vec) : v.map (fun w => divNoNan w 0) = zeroVec v.length := by
  induction v with
  | nil => rfl
  | cons a t ih =>
      show divNoNan a 0 :: t.map (fun w => divNoNan w 0) = zeroVec (t.length + 1)
      rw [ih]
      show (0 : ℚ) :: zeroVec t.length = _
      rfl

/-- The number of items of a named node set (0 if the node set is
absent). -/
def receiverCount (g : GraphTensor) (node_set_name : String) : ℕ :=
  ((lookup g.node_sets node_set_name).map NodeSet.total_size).getD 0

/-- The number of edges of edge set `en` incident to node `i` at the given
endpoint tag. -/
def countIncident (g : GraphTensor) (en : String) (tag : Tag) (i : ℕ) : ℕ :=
  match lookup g.edge_sets en with
  | none => 0
  | some es => ((es.adjacency.endpoints tag).filter (fun e => e == i)).length

/-- The total accumulated in-degree of receiver node `i` as the spec states
it: the count of its incident edges summed over all configured edge sets,
plus 1 when the self-loop is enabled. -/
def gcnNodeDegree (cfg : GCNGraphSAGENodeSetUpdate) (g : GraphTensor) (i : ℕ) : ℚ :=
  (cfg.edge_set_names.map (fun en => (countIncident g en cfg.receiver_tag i : ℚ))).sum +
    (if cfg.add_self_loop then 1 else 0)

/-- The contribution of one edge set to receiver node `i` as the spec
states it: the elementwise sum, over the edges of `en` incident to `i`, of
the dropout-and-transformed sender states. -/
def esContribution (cfg : GCNGraphSAGENodeSetUpdate) (w : GCNWeights) (m : GCNMasks)
    (amb : Bool) (g : GraphTensor) (en : String) (i : ℕ) : Vec :=
  match lookup g.edge_sets en with
  | none => zeroVec cfg.units
  | some es =>
      match lookup g.node_sets (es.adjacency.node_set_name (reverseTag cfg.receiver_tag)) with
      | none => zeroVec cfg.units
      | some sns =>
          match lookup sns.features cfg.sender_node_feature with
          | none => zeroVec cfg.units
          | some sender_raw =>
              ((((es.adjacency.endpoints (reverseTag cfg.receiver_tag)).zip
                  (es.adjacency.endpoints cfg.receiver_tag)).filter
                  (fun pr => pr.2 == i)).map
                  (fun pr => (cfg.senderVals w m amb en sender_raw).getD pr.1 [])).foldl
                addVec (zeroVec cfg.units)

/-- The self-loop contribution to node `i`: the dropout-and-transformed old
state of the node itself. -/
def gcnSelfTerm (cfg : GCNGraphSAGENodeSetUpdate) (w : GCNWeights) (m : GCNMasks)
    (amb : Bool) (g : GraphTensor) (node_set_name : String) (i : ℕ) : Vec :=
  match lookup g.node_sets node_set_name with
  | none => zeroVec cfg.units
  | some nsv =>
      match lookup nsv.features cfg.self_node_feature with
      | none => zeroVec cfg.units
      | some self_raw =>
          (denseNoBias w.node_kernel
            (dropout cfg.dropout_rate m.self_mask amb self_raw)).getD i []

/-- The elementwise sum of all transformed contributions to node `i` as the
spec states it: the per-edge-set contributions plus the self-loop term when
enabled. -/
def gcnNodeContribution (cfg : GCNGraphSAGENodeSetUpdate) (w : GCNWeights) (m : GCNMasks)
    (amb : Bool) (g : GraphTensor) (node_set_name : String) (i : ℕ) : Vec :=
  addVec
    ((cfg.edge_set_names.map (fun en => esContribution cfg w m amb g en i)).foldl
      addVec (zeroVec cfg.units))
    (if cfg.add_self_loop then gcnSelfTerm cfg w m amb g node_set_name i
     else zeroVec cfg.units)

theorem lookup_mem {α : Type} {l : List (String × α)} {k : String} {v : α}
    (h : lookup l k = some v) : (k, v) ∈ l := by
  unfold lookup at h
  cases hf : l.find? (fun p => p.1 == k) with
  | none => rw [hf] at h; simp at h
  | some p =>
      rw [hf] at h
      have hp := List.mem_of_find?_eq_some hf
      have hk : p.1 = k := by simpa using List.find?_some hf
      have hv : v = p.2 := by simpa using h.symm
      rw [hv, ← hk]
      exact hp

theorem addVec_zeroVec_right (v : Vec) (d : ℕ) (h : v.length = d) :
    addVec v (zeroVec d) = v := by
  subst h
  induction v with
  | nil => rfl
  | cons x t ih =>
      show (x + (0 : ℚ)) :: addVec t (zeroVec t.length) = x :: t
      rw [add_zero, ih]

theorem length_foldl_addVec : ∀ (l : List Vec) (acc : Vec) (n : ℕ), acc.length = n →
    (∀ v ∈ l, v.length = n) → (l.foldl addVec acc).length = n := by
  intro l
  induction l with
  | nil => intro acc n hacc _; exact hacc
  | cons u us ih =>
      intro acc n hacc hl
      exact ih (addVec acc u) n
        (length_addVec_eq hacc (hl u (List.mem_cons_self u us)))
        (fun v hv => hl v (List.mem_cons_of_mem u hv))

theorem endpoints_length {es : EdgeSet}
    (h : es.adjacency.source.length = es.adjacency.target.length) (tag : Tag) :
    (es.adjacency.endpoints tag).length = es.total_size := by
  cases tag with
  | SOURCE => rfl
  | TARGET => exact h.symm

theorem addNVec_getD {l : List Vec} {n i : ℕ} (hi : i < n)
    (hl : ∀ v ∈ l, v.length = n) (hne : l ≠ []) :
    (addNVec l).length = n ∧
    (addNVec l).getD i 0 = (l.map (fun v => v.getD i 0)).sum := by
  cases l with
  | nil => exact absurd rfl hne
  | cons v vs =>
      have hv : v.length = n := hl v (List.mem_cons_self v vs)
      rcases foldl_addVec_getD vs v n i hi hv
        (fun u hu => hl u (List.mem_cons_of_mem v hu)) with ⟨h1, h2⟩
      refine ⟨h1, ?_⟩
      show (vs.foldl addVec v).getD i 0 = _
      rw [h2, foldl_add_eq_sum, List.map_cons, List.sum_cons]

theorem addN_cons_getD {t : Tensor} {ts : List Tensor} {n i : ℕ} (hi : i < n)
    (ht : t.length = n) (hts : ∀ u ∈ ts, u.length = n) :
    (addN (t :: ts)).length = n ∧
    (addN (t :: ts)).getD i [] =
      (ts.map (fun u => u.getD i [])).foldl addVec (t.getD i []) :=
  foldl_addT_getD ts t n i hi ht hts

theorem length_senderVals (cfg : GCNGraphSAGENodeSetUpdate) (w : GCNWeights)
    (m : GCNMasks) (amb : Bool) (en : String) (x : Tensor) :
    (cfg.senderVals w m amb en x).length = x.length := by
  unfold GCNGraphSAGENodeSetUpdate.senderVals
  by_cases h : ¬cfg.share_weights = true
  · rw [if_pos h, length_denseNoBias, length_dropout]
  · rw [if_neg h, length_denseNoBias, length_dropout]

theorem width_senderVals (cfg : GCNGraphSAGENodeSetUpdate) (w : GCNWeights)
    (m : GCNMasks) (amb : Bool) (en : String) (x : Tensor)
    (hek : (w.edge_kernels en).length = cfg.units)
    (hnk : w.node_kernel.length = cfg.units) :
    ∀ r ∈ cfg.senderVals w m amb en x, r.length = cfg.units := by
  unfold GCNGraphSAGENodeSetUpdate.senderVals
  intro r hr
  by_cases h : ¬cfg.share_weights = true
  · rw [if_pos h] at hr
    rw [width_denseNoBias _ _ r hr, hek]
  · rw [if_neg h] at hr
    rw [width_denseNoBias _ _ r hr, hnk]

theorem length_esContribution (cfg : GCNGraphSAGENodeSetUpdate) (w : GCNWeights)
    (m : GCNMasks) (amb : Bool) (g : GraphTensor) (en : String) (i : ℕ)
    (hek : ∀ en2, (w.edge_kernels en2).length = cfg.units)
    (hnk : w.node_kernel.length = cfg.units)
    (hwfi : ∀ p ∈ g.edge_sets, ∀ tg : Tag, ∀ e ∈ p.2.adjacency.endpoints tg,
      e < receiverCount g (p.2.adjacency.node_set_name tg))
    (hwff : ∀ p ∈ g.node_sets, ∀ q ∈ p.2.features, q.2.length = p.2.total_size) :
    (esContribution cfg w m amb g en i).length = cfg.units := by
  unfold esContribution
  split
  next => simp [zeroVec]
  next es hes =>
    split
    next => simp [zeroVec]
    next sns hsn =>
      split
      next => simp [zeroVec]
      next sender_raw hsf =>
        apply length_foldl_addVec _ _ _ (by simp [zeroVec])
        intro v hv
        rcases List.mem_map.mp hv with ⟨pr, hpr, rfl⟩
        have hprz := (List.mem_filter.mp hpr).1
        have hsrc : pr.1 ∈ es.adjacency.endpoints (reverseTag cfg.receiver_tag) := by
          rcases pr with ⟨a, b⟩
          exact (List.of_mem_zip hprz).1
        have hbou := hwfi (en, es) (lookup_mem hes) (reverseTag cfg.receiver_tag) pr.1 hsrc
        have hrc : receiverCount g
            (es.adjacency.node_set_name (reverseTag cfg.receiver_tag)) =
            sns.total_size := by
          unfold receiverCount
          rw [hsn]
          rfl
        have hlenf : sender_raw.length = sns.total_size :=
          hwff _ (lookup_mem hsn) _ (lookup_mem hsf)
        have hvl : pr.1 < (cfg.senderVals w m amb en sender_raw).length := by
          rw [length_senderVals, hlenf, ← hrc]
          exact hbou
        rw [List.getD_eq_getElem _ _ hvl]
        exact width_senderVals cfg w m amb en sender_raw (hek en) hnk _
          (List.getElem_mem hvl)

theorem length_gcnSelfTerm (cfg : GCNGraphSAGENodeSetUpdate) (w : GCNWeights)
    (m : GCNMasks) (amb : Bool) (g : GraphTensor) (node_set_name : String) (i : ℕ)
    (hnk : w.node_kernel.length = cfg.units)
    (hwff : ∀ p ∈ g.node_sets, ∀ q ∈ p.2.features, q.2.length = p.2.total_size)
    (hi : i < receiverCount g node_set_name) :
    (gcnSelfTerm cfg w m amb g node_set_name i).length = cfg.units := by
  unfold gcnSelfTerm
  split
  next => simp [zeroVec]
  next nsv hns =>
    split
    next => simp [zeroVec]
    next self_raw hsf =>
      have hrc : receiverCount g node_set_name = nsv.total_size := by
        unfold receiverCount
        rw [hns]
        rfl
      have hlenf : self_raw.length = nsv.total_size :=
        hwff _ (lookup_mem hns) _ (lookup_mem hsf)
      have hvl : i < (denseNoBias w.node_kernel
          (dropout cfg.dropout_rate m.self_mask amb self_raw)).length := by
        rw [length_denseNoBias, length_dropout, hlenf, ← hrc]
        exact hi
      rw [List.getD_eq_getElem _ _ hvl]
      rw [width_denseNoBias _ _ _ (List.getElem_mem hvl), hnk]

theorem length_gcnNodeContribution (cfg : GCNGraphSAGENodeSetUpdate) (w : GCNWeights)
    (m : GCNMasks) (amb : Bool) (g : GraphTensor) (node_set_name : String) (i : ℕ)
    (hek : ∀ en2, (w.edge_kernels en2).length = cfg.units)
    (hnk : w.node_kernel.length = cfg.units)
    (hwfi : ∀ p ∈ g.edge_sets, ∀ tg : Tag, ∀ e ∈ p.2.adjacency.endpoints tg,
      e < receiverCount g (p.2.adjacency.node_set_name tg))
    (hwff : ∀ p ∈ g.node_sets, ∀ q ∈ p.2.features, q.2.length = p.2.total_size)
    (hi : i < receiverCount g node_set_name) :
    (gcnNodeContribution cfg w m amb g node_set_name i).length = cfg.units := by
  unfold gcnNodeContribution
  have h1 : ((cfg.edge_set_names.map (fun en => esContribution cfg w m amb g en i)).foldl
      addVec (zeroVec cfg.units)).length = cfg.units := by
    apply length_foldl_addVec _ _ _ (by simp [zeroVec])
    intro v hv
    rcases List.mem_map.mp hv with ⟨en, _, rfl⟩
    exact length_esContribution cfg w m amb g en i hek hnk hwfi hwff
  have h2 : (if cfg.add_self_loop then gcnSelfTerm cfg w m amb g node_set_name i
      else zeroVec cfg.units).length = cfg.units := by
    by_cases hsl : cfg.add_self_loop = true
    · rw [if_pos hsl]
      exact length_gcnSelfTerm cfg w m amb g node_set_name i hnk hwff hi
    · rw [if_neg hsl]
      simp [zeroVec]
  exact length_addVec_eq h1 h2

theorem except_bind_ok {ε α β : Type} {x : Except ε α} {f : α → Except ε β} {r : β}
    (h : (x >>= f) = .ok r) : ∃ a, x = .ok a ∧ f a = .ok r := by
  cases x with
  | error e => exact Except.noConfusion h
  | ok a => exact ⟨a, rfl, h⟩

theorem getEdgeSet_ok {g : GraphTensor} {n : String} {es : EdgeSet}
    (h : getEdgeSet g n = .ok es) : lookup g.edge_sets n = some es := by
  unfold getEdgeSet at h
  cases hl : lookup g.edge_sets n with
  | none => rw [hl] at h; exact Except.noConfusion h
  | some x =>
      rw [hl] at h
      replace h : Except.ok x = Except.ok es := h
      rw [Except.ok.inj h]

theorem getNodeSet_ok {g : GraphTensor} {n : String} {ns : NodeSet}
    (h : getNodeSet g n = .ok ns) : lookup g.node_sets n = some ns := by
  unfold getNodeSet at h
  cases hl : lookup g.node_sets n with
  | none => rw [hl] at h; exact Except.noConfusion h
  | some x =>
      rw [hl] at h
      replace h : Except.ok x = Except.ok ns := h
      rw [Except.ok.inj h]

theorem getFeature_ok {ns : NodeSet} {n : String} {t : Tensor}
    (h : getFeature ns n = .ok t) : lookup ns.features n = some t := by
  unfold getFeature at h
  cases hl : lookup ns.features n with
  | none => rw [hl] at h; exact Except.noConfusion h
  | some x =>
      rw [hl] at h
      replace h : Except.ok x = Except.ok t := h
      rw [Except.ok.inj h]

theorem broadcastNodeToEdges_eq {g : GraphTensor} {en : String} {es : EdgeSet}
    (tag : Tag) (v : Tensor) (hes : lookup g.edge_sets en = some es) :
    broadcastNodeToEdges g en tag v =
      (es.adjacency.endpoints tag).map (fun e => v.getD e []) := by
  unfold broadcastNodeToEdges
  split
  next h => rw [hes] at h; exact Option.noConfusion h
  next es2 h =>
    rw [hes] at h
    rw [Option.some.inj h]

theorem poolEdgesToNode_sum_eq {g : GraphTensor} {en : String} {es : EdgeSet}
    (tag : Tag) (dim : ℕ) (vals : Tensor) (hes : lookup g.edge_sets en = some es) :
    poolEdgesToNode g en tag "sum" dim vals =
      poolSum (receiverCount g (es.adjacency.node_set_name tag)) dim
        (es.adjacency.endpoints tag) vals := by
  unfold poolEdgesToNode
  split
  next h => rw [hes] at h; exact Option.noConfusion h
  next es2 h =>
    rw [hes] at h
    rw [Option.some.inj h]
    rw [if_pos rfl]
    rfl

theorem esContribution_eq {cfg : GCNGraphSAGENodeSetUpdate} {w : GCNWeights}
    {m : GCNMasks} {amb : Bool} {g : GraphTensor} {en : String} {i : ℕ}
    {es : EdgeSet} {sns : NodeSet} {sender_raw : Tensor}
    (hes : lookup g.edge_sets en = some es)
    (hsn : lookup g.node_sets
      (es.adjacency.node_set_name (reverseTag cfg.receiver_tag)) = some sns)
    (hsf : lookup sns.features cfg.sender_node_feature = some sender_raw) :
    esContribution cfg w m amb g en i =
      ((((es.adjacency.endpoints (reverseTag cfg.receiver_tag)).zip
          (es.adjacency.endpoints cfg.receiver_tag)).filter (fun pr => pr.2 == i)).map
          (fun pr => (cfg.senderVals w m amb en sender_raw).getD pr.1 [])).foldl
        addVec (zeroVec cfg.units) := by
  unfold esContribution
  split
  next h => rw [hes] at h; exact Option.noConfusion h
  next es2 h =>
    rw [hes] at h
    cases Option.some.inj h
    split
    next h2 => rw [hsn] at h2; exact Option.noConfusion h2
    next sns2 h2 =>
      rw [hsn] at h2
      cases Option.some.inj h2
      split
      next h3 => rw [hsf] at h3; exact Option.noConfusion h3
      next sr2 h3 =>
        rw [hsf] at h3
        cases Option.some.inj h3
        rfl

theorem countIncident_eq {g : GraphTensor} {en : String} {es : EdgeSet} (tag : Tag)
    (i : ℕ) (hes : lookup g.edge_sets en = some es) :
    countIncident g en tag i = ((es.adjacency.endpoints tag).filter (fun e => e == i)).length := by
  unfold countIncident
  split
  next h => rw [hes] at h; exact Option.noConfusion h
  next es2 h =>
    rw [hes] at h
    rw [Option.some.inj h]

theorem getD_map_lt {α β : Type} (f : α → β) {l : List α} {i : ℕ} (hi : i < l.length)
    (d : α) (d2 : β) : (l.map f).getD i d2 = f (l.getD i d) := by
  rw [List.getD_eq_getElem _ _ (by simpa using hi), List.getD_eq_getElem _ _ hi,
    List.getElem_map]

theorem processEdgeSet_spec {cfg : GCNGraphSAGENodeSetUpdate} {w : GCNWeights}
    {m : GCNMasks} {amb : Bool} {g : GraphTensor} {node_set_name en : String}
    {pooled : Tensor} {indeg : Vec}
    (hwfe : ∀ p ∈ g.edge_sets, p.2.adjacency.source.length = p.2.adjacency.target.length)
    (hok : cfg.processEdgeSet w m amb g node_set_name en = .ok (pooled, indeg)) :
    pooled.length = receiverCount g node_set_name ∧
    indeg.length = receiverCount g node_set_name ∧
    ∀ i, i < receiverCount g node_set_name →
      pooled.getD i [] = esContribution cfg w m amb g en i ∧
      indeg.getD i 0 = (countIncident g en cfg.receiver_tag i : ℚ) := by
  unfold GCNGraphSAGENodeSetUpdate.processEdgeSet at hok
  rcases except_bind_ok hok with ⟨es, hes0, hok⟩
  have hes := getEdgeSet_ok hes0
  by_cases hval : node_set_name ≠ es.adjacency.node_set_name cfg.receiver_tag
  · rw [if_pos hval] at hok
    exact Except.noConfusion hok
  · rw [if_neg hval] at hok
    push_neg at hval
    rcases except_bind_ok hok with ⟨sender_ns, hsn0, hok⟩
    have hsn := getNodeSet_ok hsn0
    rcases except_bind_ok hok with ⟨sender_raw, hsf0, hok⟩
    have hsf := getFeature_ok hsf0
    replace hok : Except.ok
        (poolEdgesToNode g en cfg.receiver_tag "sum" cfg.units
          (broadcastNodeToEdges g en (reverseTag cfg.receiver_tag)
            (cfg.senderVals w m amb en sender_raw)),
         (poolEdgesToNode g en cfg.receiver_tag "sum" 1
            (List.replicate es.total_size [(1 : ℚ)])).map (fun r => r.getD 0 0)) =
        Except.ok (pooled, indeg) := hok
    have hpair := Except.ok.inj hok
    have hpooled : pooled = poolEdgesToNode g en cfg.receiver_tag "sum" cfg.units
        (broadcastNodeToEdges g en (reverseTag cfg.receiver_tag)
          (cfg.senderVals w m amb en sender_raw)) := (congrArg Prod.fst hpair).symm
    have hindeg : indeg = (poolEdgesToNode g en cfg.receiver_tag "sum" 1
        (List.replicate es.total_size [(1 : ℚ)])).map (fun r => r.getD 0 0) :=
      (congrArg Prod.snd hpair).symm
    have hrecv : es.adjacency.node_set_name cfg.receiver_tag = node_set_name := hval.symm
    have hplen : pooled.length = receiverCount g node_set_name := by
      rw [hpooled, poolEdgesToNode_sum_eq _ _ _ hes, length_poolSum, hrecv]
    have hilen : indeg.length = receiverCount g node_set_name := by
      rw [hindeg, List.length_map, poolEdgesToNode_sum_eq _ _ _ hes, length_poolSum, hrecv]
    refine ⟨hplen, hilen, ?_⟩
    intro i hi
    constructor
    · rw [hpooled, poolEdgesToNode_sum_eq _ _ _ hes, hrecv,
        poolSum_getD _ _ _ hi,
        broadcastNodeToEdges_eq _ _ hes,
        zip_broadcast_filter,
        esContribution_eq hes hsn hsf]
    · have hplen2 : i < (poolEdgesToNode g en cfg.receiver_tag "sum" 1
          (List.replicate es.total_size [(1 : ℚ)])).length := by
        rw [poolEdgesToNode_sum_eq _ _ _ hes, length_poolSum, hrecv]
        exact hi
      rw [hindeg, getD_map_lt _ hplen2 []]
      rw [poolEdgesToNode_sum_eq _ _ _ hes] at hplen2 ⊢
      rw [poolSum_getD _ _ _ (by rw [hrecv]; exact hi)]
      have hones : List.replicate es.total_size [(1 : ℚ)] =
          List.replicate (es.adjacency.endpoints cfg.receiver_tag).length [(1 : ℚ)] := by
        rw [endpoints_length (hwfe (en, es) (lookup_mem hes)) cfg.receiver_tag]
      rw [hones, zip_replicate_filter]
      show ((List.replicate _ [(1 : ℚ)]).foldl addVec [(0 : ℚ)]).getD 0 0 = _
      rw [fold_ones_acc, countIncident_eq _ _ hes]
      show (0 : ℚ) + _ = _
      rw [zero_add]

theorem loop_spec {cfg : GCNGraphSAGENodeSetUpdate} {w : GCNWeights} {m : GCNMasks}
    {amb : Bool} {g : GraphTensor} {node_set_name : String}
    (hmean : cfg.reduce_type = "mean")
    (hwfe : ∀ p ∈ g.edge_sets, p.2.adjacency.source.length = p.2.adjacency.target.length) :
    ∀ (names : List String) (pooled : List Tensor) (degs : List Vec),
      cfg.loop w m amb g node_set_name names = .ok (pooled, degs) →
      (∀ t ∈ pooled, t.length = receiverCount g node_set_name) ∧
      (∀ v ∈ degs, v.length = receiverCount g node_set_name) ∧
      (∀ i, i < receiverCount g node_set_name →
        pooled.map (fun t => t.getD i []) =
          names.map (fun en => esContribution cfg w m amb g en i) ∧
        degs.map (fun v => v.getD i 0) =
          names.map (fun en => (countIncident g en cfg.receiver_tag i : ℚ))) := by
  intro names
  induction names with
  | nil =>
      intro pooled degs hok
      replace hok : Except.ok (([] : List Tensor), ([] : List Vec)) = .ok (pooled, degs) := hok
      have hpair := Except.ok.inj hok
      have h1 : pooled = [] := (congrArg Prod.fst hpair).symm
      have h2 : degs = [] := (congrArg Prod.snd hpair).symm
      subst h1
      subst h2
      exact ⟨by intro t ht; simp at ht, by intro v hv; simp at hv, fun i _ => ⟨rfl, rfl⟩⟩
  | cons en rest ih =>
      intro pooled degs hok
      rw [GCNGraphSAGENodeSetUpdate.loop] at hok
      rcases except_bind_ok hok with ⟨pr, hpr, hok⟩
      rcases pr with ⟨prt, prd⟩
      rcases except_bind_ok hok with ⟨pp, hpp, hok⟩
      rcases pp with ⟨pt, pd⟩
      replace hok : Except.ok (prt :: pt,
          if cfg.reduce_type = "mean" then prd :: pd else pd) = .ok (pooled, degs) := hok
      rw [hmean, if_pos rfl] at hok
      have hpair := Except.ok.inj hok
      have h1 : pooled = prt :: pt := (congrArg Prod.fst hpair).symm
      have h2 : degs = prd :: pd := (congrArg Prod.snd hpair).symm
      subst h1
      subst h2
      rcases processEdgeSet_spec hwfe hpr with ⟨hprl, hprd, hprk⟩
      rcases ih pt pd hpp with ⟨hptl, hpdl, hkey⟩
      refine ⟨?_, ?_, ?_⟩
      · intro t ht
        rcases List.mem_cons.mp ht with ht | ht
        · rw [ht]; exact hprl
        · exact hptl t ht
      · intro v hv
        rcases List.mem_cons.mp hv with hv | hv
        · rw [hv]; exact hprd
        · exact hpdl v hv
      · intro i hi
        rcases hprk i hi with ⟨hc1, hc2⟩
        rcases hkey i hi with ⟨hk1, hk2⟩
        constructor
        · rw [List.map_cons, List.map_cons, hc1, hk1]
        · rw [List.map_cons, List.map_cons, hc2, hk2]

theorem addN_spec {ts : List Tensor} {n u i : ℕ} (hi : i < n)
    (hts : ∀ t ∈ ts, t.length = n) (hrow : ∀ t ∈ ts, (t.getD i []).length = u)
    (hne : ts ≠ []) :
    (addN ts).length = n ∧
    (addN ts).getD i [] = (ts.map (fun t2 => t2.getD i [])).foldl addVec (zeroVec u) := by
  cases ts with
  | nil => exact absurd rfl hne
  | cons t rest =>
      rcases addN_cons_getD hi (hts t (List.mem_cons_self t rest))
        (fun v hv => hts v (List.mem_cons_of_mem t hv)) with ⟨h1, h2⟩
      refine ⟨h1, ?_⟩
      rw [h2, List.map_cons, List.foldl_cons,
        addVec_zeroVec_left _ u (hrow t (List.mem_cons_self t rest))]

theorem gcnSelfTerm_eq {cfg : GCNGraphSAGENodeSetUpdate} {w : GCNWeights}
    {m : GCNMasks} {amb : Bool} {g : GraphTensor} {node_set_name : String}
    {nsv : NodeSet} {self_raw : Tensor}
    (hns : lookup g.node_sets node_set_name = some nsv)
    (hsf : lookup nsv.features cfg.self_node_feature = some self_raw) (i : ℕ) :
    gcnSelfTerm cfg w m amb g node_set_name i =
      (denseNoBias w.node_kernel
        (dropout cfg.dropout_rate m.self_mask amb self_raw)).getD i [] := by
  unfold gcnSelfTerm
  split
  next h => rw [hns] at h; exact Option.noConfusion h
  next nsv2 h =>
    rw [hns] at h
    cases Option.some.inj h
    split
    next h2 => rw [hsf] at h2; exact Option.noConfusion h2
    next sr2 h2 =>
      rw [hsf] at h2
      cases Option.some.inj h2
      rfl

/-- C3: under `mean` reduction, each receiver node's pre-bias,
pre-activation result of `GCNGraphSAGENodeSetUpdate` equals the elementwise
sum of all transformed contributions divided (with division by zero defined
as zero) by the node's total accumulated in-degree — the count of its
incident edges over all configured edge sets plus 1 under `add_self_loop` —
and a node of total in-degree zero gets exactly the zero vector, while the
call itself completes without error. -/
theorem gcn_mean_reduction (cfg : GCNGraphSAGENodeSetUpdate) (w : GCNWeights)
    (m : GCNMasks) (amb : Bool) (g : GraphTensor) (node_set_name : String) (t : Tensor)
    (hmean : cfg.reduce_type = "mean")
    (hek : ∀ en, (w.edge_kernels en).length = cfg.units)
    (hnk : w.node_kernel.length = cfg.units)
    (hwfe : ∀ p ∈ g.edge_sets, p.2.adjacency.source.length = p.2.adjacency.target.length)
    (hwfi : ∀ p ∈ g.edge_sets, ∀ tg : Tag, ∀ e ∈ p.2.adjacency.endpoints tg,
      e < receiverCount g (p.2.adjacency.node_set_name tg))
    (hwff : ∀ p ∈ g.node_sets, ∀ q ∈ p.2.features, q.2.length = p.2.total_size)
    (hnonempty : cfg.edge_set_names ≠ [] ∨ cfg.add_self_loop = true)
    (hpre : cfg.preActivation w m amb g node_set_name = .ok t) :
    (cfg.call w m g node_set_name amb =
      .ok [(cfg.self_node_feature,
        mapT cfg.activation (if cfg.use_bias then addBias w.bias t else t))]) ∧
    (∀ i, i < receiverCount g node_set_name →
      t.getD i [] = (gcnNodeContribution cfg w m amb g node_set_name i).map
        (fun v => divNoNan v (gcnNodeDegree cfg g i)) ∧
      (gcnNodeDegree cfg g i = 0 → t.getD i [] = zeroVec cfg.units)) := by
  constructor
  · unfold GCNGraphSAGENodeSetUpdate.call
    rw [hpre]
    rfl
  · unfold GCNGraphSAGENodeSetUpdate.preActivation at hpre
    rw [hmean] at hpre
    rw [if_neg (by decide)] at hpre
    rcases except_bind_ok hpre with ⟨lp, hlp, hpre⟩
    rcases lp with ⟨pooled, degs⟩
    rcases except_bind_ok hpre with ⟨nsv, hnsv0, hpre⟩
    have hnsv := getNodeSet_ok hnsv0
    have hrc : receiverCount g node_set_name = nsv.total_size := by
      unfold receiverCount
      rw [hnsv]
      rfl
    rcases loop_spec hmean hwfe cfg.edge_set_names pooled degs hlp with ⟨hplen, hdlen, hkey⟩
    rcases except_bind_ok hpre with ⟨pd2, hpd2, hpre⟩
    rcases pd2 with ⟨pooled2, degs2⟩
    replace hpre : Except.ok (List.zipWith (fun row d => row.map (fun v => divNoNan v d))
        (addN pooled2) (addNVec degs2)) = Except.ok t := hpre
    have ht : t = List.zipWith (fun row d => row.map (fun v => divNoNan v d))
        (addN pooled2) (addNVec degs2) := (Except.ok.inj hpre).symm
    by_cases hsl : cfg.add_self_loop = true
    · -- with self loop
      rw [GCNGraphSAGENodeSetUpdate.selfAugment, if_pos hsl] at hpd2
      rcases except_bind_ok hpd2 with ⟨self_raw, hsf0, hpd2⟩
      have hsf := getFeature_ok hsf0
      replace hpd2 : Except.ok
          (pooled ++ [denseNoBias w.node_kernel
            (dropout cfg.dropout_rate m.self_mask amb self_raw)],
           if cfg.reduce_type = "mean" then
             degs ++ [List.replicate nsv.total_size (1 : ℚ)] else degs) =
          Except.ok (pooled2, degs2) := hpd2
      rw [hmean, if_pos rfl] at hpd2
      have hpair2 := Except.ok.inj hpd2
      have hp2 : pooled2 = pooled ++ [denseNoBias w.node_kernel
          (dropout cfg.dropout_rate m.self_mask amb self_raw)] :=
        (congrArg Prod.fst hpair2).symm
      have hd2 : degs2 = degs ++ [List.replicate nsv.total_size (1 : ℚ)] :=
        (congrArg Prod.snd hpair2).symm
      intro i hi
      have hkey1 := (hkey i hi).1
      have hkey2 := (hkey i hi).2
      have hselflen : (denseNoBias w.node_kernel
          (dropout cfg.dropout_rate m.self_mask amb self_raw)).length =
          receiverCount g node_set_name := by
        rw [length_denseNoBias, length_dropout, hrc]
        exact hwff _ (lookup_mem hnsv) _ (lookup_mem hsf)
      have hts : ∀ u ∈ pooled2, u.length = receiverCount g node_set_name := by
        rw [hp2]
        intro u hu
        rcases List.mem_append.mp hu with hu | hu
        · exact hplen u hu
        · rw [List.mem_singleton.mp hu]
          exact hselflen
      have hrow : ∀ u ∈ pooled2, (u.getD i []).length = cfg.units := by
        rw [hp2]
        intro u hu
        rcases List.mem_append.mp hu with hu | hu
        · have : u.getD i [] ∈ pooled.map (fun t2 => t2.getD i []) :=
            List.mem_map.mpr ⟨u, hu, rfl⟩
          rw [hkey1] at this
          rcases List.mem_map.mp this with ⟨en, _, heq⟩
          rw [← heq]
          exact length_esContribution cfg w m amb g en i hek hnk hwfi hwff
        · rw [List.mem_singleton.mp hu]
          have hil : i < (denseNoBias w.node_kernel
              (dropout cfg.dropout_rate m.self_mask amb self_raw)).length := by
            rw [hselflen]
            exact hi
          rw [List.getD_eq_getElem _ _ hil]
          rw [width_denseNoBias _ _ _ (List.getElem_mem hil), hnk]
      have hne2 : pooled2 ≠ [] := by
        rw [hp2]
        simp
      rcases addN_spec hi hts hrow hne2 with ⟨haddlen, haddget⟩
      have hmap2 : pooled2.map (fun t2 => t2.getD i []) =
          (cfg.edge_set_names.map (fun en => esContribution cfg w m amb g en i)) ++
            [gcnSelfTerm cfg w m amb g node_set_name i] := by
        rw [hp2, List.map_append, hkey1]
        congr 1
        rw [List.map_singleton, gcnSelfTerm_eq hnsv hsf i]
      have hsummed : (addN pooled2).getD i [] =
          gcnNodeContribution cfg w m amb g node_set_name i := by
        rw [haddget, hmap2, List.foldl_append]
        unfold gcnNodeContribution
        rw [if_pos hsl]
        rfl
      -- degrees
      have hdl : ∀ v ∈ degs2, v.length = receiverCount g node_set_name := by
        rw [hd2]
        intro v hv
        rcases List.mem_append.mp hv with hv | hv
        · exact hdlen v hv
        · rw [List.mem_singleton.mp hv, List.length_replicate, hrc]
      have hdne : degs2 ≠ [] := by
        rw [hd2]
        simp
      rcases addNVec_getD hi hdl hdne with ⟨hdeglen, hdegget⟩
      have hmapd : degs2.map (fun v => v.getD i 0) =
          (cfg.edge_set_names.map (fun en => (countIncident g en cfg.receiver_tag i : ℚ))) ++
            [(1 : ℚ)] := by
        rw [hd2, List.map_append, hkey2]
        congr 1
        rw [List.map_singleton]
        congr 1
        have hir : i < (List.replicate nsv.total_size (1 : ℚ)).length := by
          rw [List.length_replicate, ← hrc]
          exact hi
        rw [List.getD_eq_getElem _ _ hir, List.getElem_replicate]
      have hdeg : (addNVec degs2).getD i 0 = gcnNodeDegree cfg g i := by
        rw [hdegget, hmapd, List.sum_append]
        unfold gcnNodeDegree
        rw [if_pos hsl]
        simp
      have hzip : t.getD i [] = ((addN pooled2).getD i []).map
          (fun v => divNoNan v ((addNVec degs2).getD i 0)) := by
        rw [ht]
        have hb1 : i < (addN pooled2).length := by rw [haddlen]; exact hi
        have hb2 : i < (addNVec degs2).length := by rw [hdeglen]; exact hi
        have hbz : i < (List.zipWith (fun row d => row.map (fun v => divNoNan v d))
            (addN pooled2) (addNVec degs2)).length := by
          rw [List.length_zipWith]
          exact lt_min hb1 hb2
        rw [List.getD_eq_getElem _ _ hbz, List.getD_eq_getElem _ _ hb1,
          List.getD_eq_getElem _ _ hb2, List.getElem_zipWith]
      have hmain : t.getD i [] = (gcnNodeContribution cfg w m amb g node_set_name i).map
          (fun v => divNoNan v (gcnNodeDegree cfg g i)) := by
        rw [hzip, hsummed, hdeg]
      refine ⟨hmain, ?_⟩
      intro h0
      rw [hmain, h0, map_divNoNan_zero,
        length_gcnNodeContribution cfg w m amb g node_set_name i hek hnk hwfi hwff hi]
    · -- without self loop
      rw [GCNGraphSAGENodeSetUpdate.selfAugment, if_neg hsl] at hpd2
      replace hpd2 : Except.ok (pooled, degs) = Except.ok (pooled2, degs2) := hpd2
      have hpair2 := Except.ok.inj hpd2
      have hp2 : pooled2 = pooled := (congrArg Prod.fst hpair2).symm
      have hd2 : degs2 = degs := (congrArg Prod.snd hpair2).symm
      rw [hp2, hd2] at ht
      have hnames : cfg.edge_set_names ≠ [] := hnonempty.resolve_right hsl
      intro i hi
      have hkey1 := (hkey i hi).1
      have hkey2 := (hkey i hi).2
      have hrow : ∀ u ∈ pooled, (u.getD i []).length = cfg.units := by
        intro u hu
        have : u.getD i [] ∈ pooled.map (fun t2 => t2.getD i []) :=
          List.mem_map.mpr ⟨u, hu, rfl⟩
        rw [hkey1] at this
        rcases List.mem_map.mp this with ⟨en, _, heq⟩
        rw [← heq]
        exact length_esContribution cfg w m amb g en i hek hnk hwfi hwff
      have hne2 : pooled ≠ [] := by
        intro hc
        apply hnames
        have := congrArg List.length hkey1
        rw [hc] at this
        simp only [List.map_nil, List.length_nil, List.length_map] at this
        exact List.eq_nil_of_length_eq_zero this.symm
      rcases addN_spec hi hplen hrow hne2 with ⟨haddlen, haddget⟩
      have hsummed : (addN pooled).getD i [] =
          gcnNodeContribution cfg w m amb g node_set_name i := by
        rw [haddget, hkey1]
        unfold gcnNodeContribution
        rw [if_neg hsl]
        rw [addVec_zeroVec_right _ cfg.units]
        apply length_foldl_addVec _ _ _ (by simp [zeroVec])
        intro v hv
        rcases List.mem_map.mp hv with ⟨en, _, rfl⟩
        exact length_esContribution cfg w m amb g en i hek hnk hwfi hwff
      have hdne : degs ≠ [] := by
        intro hc
        apply hnames
        have := congrArg List.length hkey2
        rw [hc] at this
        simp only [List.map_nil, List.length_nil, List.length_map] at this
        exact List.eq_nil_of_length_eq_zero this.symm
      rcases addNVec_getD hi hdlen hdne with ⟨hdeglen, hdegget⟩
      have hdeg : (addNVec degs).getD i 0 = gcnNodeDegree cfg g i := by
        rw [hdegget, hkey2]
        unfold gcnNodeDegree
        rw [if_neg hsl, add_zero]
      have hzip : t.getD i [] = ((addN pooled).getD i []).map
          (fun v => divNoNan v ((addNVec degs).getD i 0)) := by
        rw [ht]
        have hb1 : i < (addN pooled).length := by rw [haddlen]; exact hi
        have hb2 : i < (addNVec degs).length := by rw [hdeglen]; exact hi
        have hbz : i < (List.zipWith (fun row d => row.map (fun v => divNoNan v d))
            (addN pooled) (addNVec degs)).length := by
          rw [List.length_zipWith]
          exact lt_min hb1 hb2
        rw [List.getD_eq_getElem _ _ hbz, List.getD_eq_getElem _ _ hb1,
          List.getD_eq_getElem _ _ hb2, List.getElem_zipWith]
      have hmain : t.getD i [] = (gcnNodeContribution cfg w m amb g node_set_name i).map
          (fun v => divNoNan v (gcnNodeDegree cfg g i)) := by
        rw [hzip, hsummed, hdeg]
      refine ⟨hmain, ?_⟩
      intro h0
      rw [hmain, h0, map_divNoNan_zero,
        length_gcnNodeContribution cfg w m amb g node_set_name i hek hnk hwfi hwff hi]

theorem ok_bind {ε α β : Type} (x : α) (f : α → Except ε β) :
    (Except.ok x >>= f : Except ε β) = f x := rfl

instance : Fintype Tag where
  elems := {Tag.SOURCE, Tag.TARGET}
  complete := fun x => by cases x <;> simp

/-- Closed witness for the mean-reduction theorem: a 2-node graph with one
edge 1 -> 0; node 1 has total in-degree zero (no self loop) and its
pre-activation row is exactly the zero vector. -/
theorem gcn_mean_reduction_witness :
    ([[(5 : ℚ)], [0]] : Tensor).getD 1 [] = zeroVec 1 :=
  ((gcn_mean_reduction
      ⟨["e"], Tag.TARGET, "mean", "h", "h", 1, 0, id, false, false, false⟩
      ⟨fun _ => [[1]], [[1]], []⟩ ⟨fun _ _ _ => 1, fun _ _ => 1⟩ false
      ⟨[("n", ⟨2, [("h", [[3], [5]])]⟩)], [("e", ⟨⟨"n", "n", [1], [0]⟩⟩)]⟩ "n"
      [[5], [0]] rfl (fun _ => rfl) rfl (by decide) (by decide) (by decide)
      (by decide)
      (by simp [GCNGraphSAGENodeSetUpdate.preActivation, GCNGraphSAGENodeSetUpdate.loop,
        GCNGraphSAGENodeSetUpdate.processEdgeSet, GCNGraphSAGENodeSetUpdate.selfAugment,
        GCNGraphSAGENodeSetUpdate.senderVals, getEdgeSet, getNodeSet, getFeature, lookup,
        denseNoBias, transformRow, dot, dropout, broadcastNodeToEdges, poolEdgesToNode,
        poolSum, addN, addT, addVec, addNVec, zeroVec, divNoNan, ok_bind,
        Adjacency.endpoints, Adjacency.node_set_name, reverseTag, EdgeSet.total_size,
        List.range_succ])).2
    1 (by decide)).2
    (by simp [gcnNodeDegree, countIncident, lookup, Adjacency.endpoints])

theorem senderVals_mask_indep (cfg : GCNGraphSAGENodeSetUpdate) (w : GCNWeights)
    (m1 m2 : GCNMasks) : ∀ (en : String) (sr : Tensor),
    cfg.senderVals w m1 false en sr = cfg.senderVals w m2 false en sr := by
  intro en sr
  simp [GCNGraphSAGENodeSetUpdate.senderVals, dropout]

theorem processEdgeSet_mask_indep (cfg : GCNGraphSAGENodeSetUpdate) (w : GCNWeights)
    (m1 m2 : GCNMasks) (g : GraphTensor) (node_set_name : String) : ∀ en : String,
    cfg.processEdgeSet w m1 false g node_set_name en =
      cfg.processEdgeSet w m2 false g node_set_name en := by
  intro en
  simp only [GCNGraphSAGENodeSetUpdate.processEdgeSet,
    senderVals_mask_indep cfg w m1 m2]

theorem loop_mask_indep (cfg : GCNGraphSAGENodeSetUpdate) (w : GCNWeights)
    (m1 m2 : GCNMasks) (g : GraphTensor) (node_set_name : String) : ∀ names : List String,
    cfg.loop w m1 false g node_set_name names =
      cfg.loop w m2 false g node_set_name names := by
  intro names
  induction names with
  | nil => rfl
  | cons en rest ih =>
      simp only [GCNGraphSAGENodeSetUpdate.loop,
        processEdgeSet_mask_indep cfg w m1 m2 g node_set_name, ih]

theorem selfAugment_mask_indep (cfg : GCNGraphSAGENodeSetUpdate) (w : GCNWeights)
    (m1 m2 : GCNMasks) : ∀ (ns : NodeSet) (pooled : List Tensor) (degs : List Vec),
    cfg.selfAugment w m1 false ns pooled degs =
      cfg.selfAugment w m2 false ns pooled degs := by
  intro ns pooled degs
  simp [GCNGraphSAGENodeSetUpdate.selfAugment, dropout]

theorem preActivation_mask_indep (cfg : GCNGraphSAGENodeSetUpdate) (w : GCNWeights)
    (m1 m2 : GCNMasks) (g : GraphTensor) (node_set_name : String) :
    cfg.preActivation w m1 false g node_set_name =
      cfg.preActivation w m2 false g node_set_name := by
  simp only [GCNGraphSAGENodeSetUpdate.preActivation,
    loop_mask_indep cfg w m1 m2 g node_set_name,
    selfAugment_mask_indep cfg w m1 m2]

/-- C6: every dropout application in the module is gated by the explicit
training flag passed to the call, with no hidden global mode: at
`training = false` the outputs of `GraphSAGEAggregatorConv.convolve`,
`GraphSAGEPoolingConv.convolve`, `GraphSAGENextState.call` and
`GCNGraphSAGENodeSetUpdate.call` do not depend on the dropout randomness
(so dropout is inactive and no ambient training mode can influence the
result). -/
theorem dropout_training_gating :
    (∀ (conv : GraphSAGEAggregatorConv) (k : List Vec) (mask1 mask2 : ℕ → ℕ → ℚ)
      (x : Option Tensor) (bc : Tensor → Tensor) (pool : Tensor → String → Tensor),
      conv.convolve k mask1 x bc pool false = conv.convolve k mask2 x bc pool false) ∧
    (∀ (conv : GraphSAGEPoolingConv) (pk : List Vec) (pb : Vec) (k : List Vec)
      (mask1 mask2 : ℕ → ℕ → ℚ) (x : Option Tensor) (bc : Tensor → Tensor)
      (pool : Tensor → String → Tensor),
      conv.convolve pk pb k mask1 x bc pool false =
        conv.convolve pk pb k mask2 x bc pool false) ∧
    (∀ (cfg : GraphSAGENextState) (sk : List Vec) (b : Vec) (rsqrt : ℚ → ℚ)
      (mask1 mask2 : ℕ → ℕ → ℚ)
      (inputs : Tensor × List (String × Tensor) × List (String × Tensor)),
      cfg.call sk b rsqrt mask1 inputs false = cfg.call sk b rsqrt mask2 inputs false) ∧
    (∀ (cfg : GCNGraphSAGENodeSetUpdate) (w : GCNWeights) (m1 m2 : GCNMasks)
      (g : GraphTensor) (node_set_name : String),
      cfg.call w m1 g node_set_name false = cfg.call w m2 g node_set_name false) := by
  refine ⟨?_, ?_, ?_, ?_⟩
  · intro conv k mask1 mask2 x bc pool
    cases x with
    | none => rfl
    | some t => simp [GraphSAGEAggregatorConv.convolve, dropout]
  · intro conv pk pb k mask1 mask2 x bc pool
    cases x with
    | none => rfl
    | some t => simp [GraphSAGEPoolingConv.convolve, dropout]
  · intro cfg sk b rsqrt mask1 mask2 inputs
    rcases inputs with ⟨x, m, ctx⟩
    simp [GraphSAGENextState.call, dropout]
  · intro cfg w m1 m2 g node_set_name
    simp only [GCNGraphSAGENodeSetUpdate.call,
      preActivation_mask_indep cfg w m1 m2 g node_set_name]

end TFGNN
